import Mathlib

/-!
Verification of the TransienteMKM sweep orchestrator and RDS finder.

This file gives a shallow embedding, in Lean 4, of the coverage-sanitization,
site-balance, sweep-loop, input-file-generation and reaction-network code of
the repository (`simulation_runner.py` and `Streamlit/graph_helper.py` /
`Streamlit/Homepage.py`), together with theorems settling the specification
claims about that code.

Modelling conventions:
- Python floats are modelled as exact rationals `ℚ` (one real-valued constant,
  the pH-7 hydroxide concentration `10^(-(14-9.5))`, lives in `ℝ`).
- Python dicts keyed by strings are modelled as association lists with
  first-match lookup (Python dicts have unique keys, so this is faithful).
- Exception-based control flow is modelled by explicit branching: a failing
  solver invocation makes the per-cell body return its entry state, which is
  exactly what the `try/except/finally` in `run_parameter_sweep` does.
-/

namespace TMKM

/-! ### Sanitization utilities (`simulation_runner.py`, class `SimulationRunner`) -/

/-- Default `SimulationRunner.EPS = 1e-9`. -/
def defEPS : ℚ := 1 / 1000000000

/-- Default `SimulationRunner.MAX_COVERAGE = 1.0`. -/
def defMAX : ℚ := 1

/-- `SimulationRunner._sanitize_value` (lines 254-265): clamp values below
`EPS` to zero and cap at `MAX_COVERAGE`.  (The `try/except` in the source can
only fire for non-numeric input, which cannot occur for a rational.) -/
def sanitizeValue (eps maxCov x : ℚ) : ℚ :=
  if x < eps then 0
  else if x > maxCov then maxCov
  else x

/-- `SimulationRunner._renormalize_free_site` (lines 271-282): sanitize the
activities, then recompute the free site as `max(0, 1 - sum)` and sanitize it.
The `adsorbates` argument is unused, exactly as in the source. -/
def renormalizeFreeSite (eps maxCov : ℚ) (adsorbates : List String)
    (activities : List ℚ) : List ℚ × ℚ :=
  let _ := adsorbates
  let actList := activities.map (sanitizeValue eps maxCov)
  let totalAds := actList.sum
  let thetaFree := max 0 (1 - totalAds)
  (actList, sanitizeValue eps maxCov thetaFree)

theorem sanitizeValue_nonneg {eps maxCov : ℚ} (heps : 0 < eps) (hmax : 0 ≤ maxCov)
    (x : ℚ) : 0 ≤ sanitizeValue eps maxCov x := by
  unfold sanitizeValue
  split_ifs with h1 h2
  · exact le_refl 0
  · exact hmax
  · push_neg at h1
    linarith

theorem sanitizeValue_le_max {eps maxCov : ℚ} (hmax : 0 ≤ maxCov)
    (x : ℚ) : sanitizeValue eps maxCov x ≤ maxCov := by
  unfold sanitizeValue
  split_ifs with h1 h2
  · exact hmax
  · exact le_refl maxCov
  · push_neg at h2
    exact h2

theorem sanitized_sum_nonneg {eps maxCov : ℚ} (heps : 0 < eps) (hmax : 0 ≤ maxCov)
    (l : List ℚ) : 0 ≤ (l.map (sanitizeValue eps maxCov)).sum := by
  apply List.sum_nonneg
  intro x hx
  obtain ⟨y, _, rfl⟩ := List.mem_map.mp hx
  exact sanitizeValue_nonneg heps hmax y

/-- C3: `_sanitize_value` with default `EPS = 1e-9` and `MAX_COVERAGE = 1.0`
always returns a value in `[0, MAX_COVERAGE]`; it returns `0.0` exactly for
inputs below `EPS` (negatives included), clamps inputs above `MAX_COVERAGE`
to `MAX_COVERAGE`, and returns inputs in `[EPS, MAX_COVERAGE]` unchanged. -/
theorem sanitizeValue_spec (x : ℚ) :
    (0 ≤ sanitizeValue defEPS defMAX x ∧ sanitizeValue defEPS defMAX x ≤ defMAX)
    ∧ (x < defEPS → sanitizeValue defEPS defMAX x = 0)
    ∧ (x > defMAX → sanitizeValue defEPS defMAX x = defMAX)
    ∧ (defEPS ≤ x → x ≤ defMAX → sanitizeValue defEPS defMAX x = x) := by
  refine ⟨⟨sanitizeValue_nonneg (by norm_num [defEPS]) (by norm_num [defMAX]) x,
          sanitizeValue_le_max (by norm_num [defMAX]) x⟩,
         ?_, ?_, ?_⟩
  · intro h
    simp [sanitizeValue, h]
  · intro h
    have hne : ¬ x < defEPS := by
      simp only [defEPS] at *
      simp only [defMAX] at h
      push_neg
      linarith
    simp [sanitizeValue, hne, h]
  · intro h1 h2
    have hne : ¬ x < defEPS := not_lt.mpr h1
    have hne2 : ¬ x > defMAX := not_lt.mpr h2
    simp [sanitizeValue, hne, hne2]

/-- Witness for C3 at concrete inputs `-3`, `2`, `1/2`. -/
theorem sanitizeValue_spec_witness :
    sanitizeValue defEPS defMAX (-3) = 0
    ∧ sanitizeValue defEPS defMAX 2 = defMAX
    ∧ sanitizeValue defEPS defMAX (1/2) = 1/2 :=
  ⟨(sanitizeValue_spec (-3)).2.1 (by norm_num [defEPS]),
   (sanitizeValue_spec 2).2.2.1 (by norm_num [defMAX]),
   (sanitizeValue_spec (1/2)).2.2.2 (by norm_num [defEPS]) (by norm_num [defMAX])⟩

/-- C1 counterexample: for the all-one input `[1, 1]` (two adsorbates),
`_renormalize_free_site` returns sanitized coverages summing to `2` and a free
site of `0`, so adsorbates + free site is `2`, off from `1` by far more than
any floating tolerance (`EPS = 1e-9`). -/
theorem renormalizeFreeSite_counterexample :
    |((renormalizeFreeSite defEPS defMAX ["A", "B"] [1, 1]).1.sum
      + (renormalizeFreeSite defEPS defMAX ["A", "B"] [1, 1]).2) - 1| > defEPS := by
  norm_num [renormalizeFreeSite, sanitizeValue, defEPS, defMAX]

/-- C1 (amended): the free site returned by `_renormalize_free_site` is the
sanitized `max(0, 1 - Σ sanitized adsorbates)`; whenever the sanitized
adsorbate sum is at most `1` the site balance holds within `EPS`
(and exactly when the sum is at most `1 - EPS`).  For sanitized sums above `1`
(e.g. the all-one input with two or more adsorbates) the returned pair sums to
the adsorbate total itself, not `1`. -/
theorem renormalizeFreeSite_balance (ads : List String) (acts : List ℚ) :
    ((renormalizeFreeSite defEPS defMAX ads acts).2
      = sanitizeValue defEPS defMAX
          (max 0 (1 - (renormalizeFreeSite defEPS defMAX ads acts).1.sum)))
    ∧ ((renormalizeFreeSite defEPS defMAX ads acts).1.sum ≤ 1 - defEPS →
        (renormalizeFreeSite defEPS defMAX ads acts).1.sum
          + (renormalizeFreeSite defEPS defMAX ads acts).2 = 1)
    ∧ ((renormalizeFreeSite defEPS defMAX ads acts).1.sum ≤ 1 →
        |((renormalizeFreeSite defEPS defMAX ads acts).1.sum
          + (renormalizeFreeSite defEPS defMAX ads acts).2) - 1| < defEPS)
    ∧ (1 < (renormalizeFreeSite defEPS defMAX ads acts).1.sum →
        (renormalizeFreeSite defEPS defMAX ads acts).1.sum
          + (renormalizeFreeSite defEPS defMAX ads acts).2
          = (renormalizeFreeSite defEPS defMAX ads acts).1.sum) := by
  have heps : (0:ℚ) < defEPS := by norm_num [defEPS]
  have hmax : (0:ℚ) ≤ defMAX := by norm_num [defMAX]
  have hsum : 0 ≤ (acts.map (sanitizeValue defEPS defMAX)).sum :=
    sanitized_sum_nonneg heps hmax acts
  simp only [renormalizeFreeSite]
  set S := (acts.map (sanitizeValue defEPS defMAX)).sum with hS
  refine ⟨by trivial, ?_, ?_, ?_⟩
  · intro h
    have h1 : max 0 (1 - S) = 1 - S := max_eq_right (by linarith)
    have h2 : sanitizeValue defEPS defMAX (1 - S) = 1 - S := by
      have : ¬ (1 - S < defEPS) := by linarith
      have hub : ¬ (1 - S > defMAX) := by
        simp only [defMAX]
        push_neg
        linarith
      simp [sanitizeValue, this, hub]
    rw [h1, h2]
    ring
  · intro h
    by_cases hcase : S ≤ 1 - defEPS
    · have h1 : max 0 (1 - S) = 1 - S := max_eq_right (by linarith)
      have h2 : sanitizeValue defEPS defMAX (1 - S) = 1 - S := by
        have : ¬ (1 - S < defEPS) := by linarith
        have hub : ¬ (1 - S > defMAX) := by
          simp only [defMAX]
          push_neg
          linarith
        simp [sanitizeValue, this, hub]
      rw [h1, h2]
      simp
      exact heps
    · push_neg at hcase
      have h1 : max 0 (1 - S) = 1 - S := max_eq_right (by linarith)
      have h2 : sanitizeValue defEPS defMAX (1 - S) = 0 := by
        have : 1 - S < defEPS := by linarith
        simp [sanitizeValue, this]
      rw [h1, h2]
      rw [abs_lt]
      constructor <;> linarith
  · intro h
    have h1 : max 0 (1 - S) = 0 := max_eq_left (by linarith)
    have h2 : sanitizeValue defEPS defMAX 0 = 0 := by
      simp [sanitizeValue]
      intro h'
      exact absurd h' (by norm_num [defEPS])
    rw [h1, h2]
    ring

/-- Witness for C1 (amended) at the concrete input `[1/2]`: the sanitized sum
is `1/2 ≤ 1 - EPS`, and adsorbates + free site is exactly `1`. -/
theorem renormalizeFreeSite_balance_witness :
    (renormalizeFreeSite defEPS defMAX ["A"] [1/2]).1.sum
      + (renormalizeFreeSite defEPS defMAX ["A"] [1/2]).2 = 1 :=
  (renormalizeFreeSite_balance ["A"] [1/2]).2.1
    (by norm_num [renormalizeFreeSite, sanitizeValue, defEPS, defMAX])

/-! ### Coverage snapshots and per-cell seed resolution
(`simulation_runner.py`, `run_parameter_sweep` lines 319-353) -/

/-- A coverage snapshot: Python dict `{species: value}` as an association
list (Python dict keys are unique; lookup is first-match). -/
abbrev Coverage := List (String × ℚ)

/-- `cov.get(k)` on a Python dict. -/
def covFind (cov : Coverage) (k : String) : Option ℚ :=
  (cov.find? (fun p => p.1 == k)).map (fun p => p.2)

/-- `cov[k] = v` on a Python dict: overwrite an existing key in place,
otherwise append (insertion order is preserved). -/
def covSet (cov : Coverage) (k : String) (v : ℚ) : Coverage :=
  if (cov.find? (fun p => p.1 == k)).isSome then
    cov.map (fun p => if p.1 == k then (k, v) else p)
  else cov ++ [(k, v)]

/-- The fields of the per-cell `data` dict used by the coverage logic:
`data['adsorbates']`, `data['activity']`, `data['free_site_coverage']`. -/
structure CellData where
  adsorbates : List String
  activity : List ℚ
  free_site_coverage : ℚ
deriving DecidableEq, Repr

/-- `SimulationRunner._apply_initial_coverage` (lines 415-429): replace each
adsorbate's activity by the sanitized previous-coverage value, keeping the
freshly-extracted value for species absent from the snapshot.  (The Python
loop indexes `activity[i]` for each adsorbate; as in every caller the two
lists have equal length, the pairwise `zip` is the same traversal.) -/
def applyInitialCoverage (eps maxCov : ℚ) (data : CellData) (prev : Coverage) :
    CellData :=
  { data with
    activity :=
      (data.adsorbates.zip data.activity).map
        (fun p => sanitizeValue eps maxCov ((covFind prev p.1).getD p.2)) }

/-- Truthiness of the Python `previous_coverage` variable: a non-`None`,
non-empty dict. -/
def covTruthy : Option Coverage → Bool
  | some p => !p.isEmpty
  | none => false

/-- Which of the three seed-resolution branches of lines 320-339 runs. -/
inductive SeedBranch where
  | zeroV
  | propagated
  | fallback
deriving DecidableEq, Repr

/-- The branch selected by the seed-resolution `if/elif/else` of lines
320-339: `V == 0.0` wins; otherwise propagation needs
`use_coverage_propagation` and a truthy `previous_coverage`. -/
def seedBranch (V : ℚ) (useProp : Bool) (prev : Option Coverage) : SeedBranch :=
  if V = 0 then .zeroV
  else if useProp && covTruthy prev then .propagated
  else .fallback

/-- Seed resolution (lines 320-339): at `V == 0.0` force all-zero adsorbate
activities and free site `1.0`; otherwise propagate a truthy previous
coverage (free site from its `'*'` entry when present, else `1.0`), or fall
back to free site `1.0` with the extractor's activities untouched. -/
def seedResolve (eps maxCov : ℚ) (useProp : Bool) (V : ℚ)
    (prev : Option Coverage) (data : CellData) : CellData :=
  if V = 0 then
    { data with
      activity := List.replicate data.adsorbates.length 0
      free_site_coverage := 1 }
  else if useProp && covTruthy prev then
    let p := prev.getD []
    let d := applyInitialCoverage eps maxCov data p
    if (covFind p "*").isSome then
      { d with free_site_coverage := sanitizeValue eps maxCov ((covFind p "*").getD 1) }
    else
      { d with free_site_coverage := 1 }
  else
    { data with free_site_coverage := 1 }

/-- Site-balance enforcement block (lines 342-353): with
`ENFORCE_SITE_BALANCE` the activities and free site are replaced by
`_renormalize_free_site`'s output; otherwise both are merely sanitized.
(The `'adsorbates' in data and 'activity' in data` guard always holds for the
record model, as both keys are set by the extractor/adapter.) -/
def enforceOrSanitize (eps maxCov : ℚ) (enforce : Bool) (data : CellData) :
    CellData :=
  if enforce then
    let r := renormalizeFreeSite eps maxCov data.adsorbates data.activity
    { data with activity := r.1, free_site_coverage := r.2 }
  else
    { data with
      activity := data.activity.map (sanitizeValue eps maxCov)
      free_site_coverage := sanitizeValue eps maxCov data.free_site_coverage }

/-- The full coverage block of the per-cell body: seed resolution followed by
the site-balance / sanitization step. -/
def coverageStep (eps maxCov : ℚ) (enforce useProp : Bool) (V : ℚ)
    (prev : Option Coverage) (data : CellData) : CellData :=
  enforceOrSanitize eps maxCov enforce (seedResolve eps maxCov useProp V prev data)

theorem sanitizeValue_zero : sanitizeValue defEPS defMAX 0 = 0 := by
  norm_num [sanitizeValue, defEPS]

theorem sanitizeValue_one : sanitizeValue defEPS defMAX 1 = 1 := by
  norm_num [sanitizeValue, defEPS, defMAX]

/-- C4: at `V == 0.0`, whatever the previous snapshot, the propagation flag
and the enforcement flag, the seed passed on to input-file generation has
every adsorbate activity equal to `0.0` and free-site coverage `1.0` — both
directly after seed resolution and after the sanitization / site-balance
step. -/
theorem seed_at_V_zero (enforce useProp : Bool) (prev : Option Coverage)
    (data : CellData) :
    (seedResolve defEPS defMAX useProp 0 prev data).activity
        = List.replicate data.adsorbates.length 0
    ∧ (seedResolve defEPS defMAX useProp 0 prev data).free_site_coverage = 1
    ∧ (coverageStep defEPS defMAX enforce useProp 0 prev data).activity
        = List.replicate data.adsorbates.length 0
    ∧ (coverageStep defEPS defMAX enforce useProp 0 prev data).free_site_coverage
        = 1 := by
  have hseed : seedResolve defEPS defMAX useProp 0 prev data
      = { data with
          activity := List.replicate data.adsorbates.length 0
          free_site_coverage := 1 } := by
    simp [seedResolve]
  have hmapz : ∀ n : ℕ, (List.replicate n (0:ℚ)).map (sanitizeValue defEPS defMAX)
      = List.replicate n 0 := by
    intro n
    rw [List.map_replicate, sanitizeValue_zero]
  have hsumz : ∀ n : ℕ, (List.replicate n (0:ℚ)).sum = 0 := by
    intro n
    simp
  refine ⟨by rw [hseed], by rw [hseed], ?_, ?_⟩
  · unfold coverageStep
    rw [hseed]
    unfold enforceOrSanitize
    cases enforce with
    | false => simp [hmapz]
    | true => simp [renormalizeFreeSite, hmapz, hsumz]
  · unfold coverageStep
    rw [hseed]
    unfold enforceOrSanitize
    cases enforce with
    | false => simp [sanitizeValue_one]
    | true =>
        simp [renormalizeFreeSite, hmapz, hsumz, sanitizeValue_one]

/-! ### Potential ordering and the CoverageManager
(`simulation_runner.py` lines 46-91 and 295-299) -/

/-- Python's built-in `abs`, written so that the kernel can evaluate it on
concrete rationals. -/
def absQ (x : ℚ) : ℚ := if x < 0 then -x else x

theorem absQ_eq_abs (x : ℚ) : absQ x = |x| := by
  unfold absQ
  split_ifs with h
  · exact (abs_of_neg h).symm
  · exact (abs_of_nonneg (not_lt.mp h)).symm

/-- `sorted(V_list, key=abs)`: Python's sort is stable, and
`List.insertionSort` with the non-strict key comparison is the stable sort
for that key, so the two agree on every input. -/
def sortedByAbs (l : List ℚ) : List ℚ :=
  l.insertionSort (fun a b => absQ a ≤ absQ b)

/-- The potentials processed per pH (lines 295-299): ascending `|V|` when
sweep mode is enabled, the configured order otherwise. -/
def orderedVSteps (sweepMode : Bool) (Vlist : List ℚ) : List ℚ :=
  if sweepMode then sortedByAbs Vlist else Vlist

/-- `CoverageManager.coverage_data` flattened to `(pH, V) ↦ snapshot`. -/
abbrev Manager := List ((ℚ × ℚ) × Coverage)

/-- `CoverageManager.save_coverage`. -/
def saveCoverage (m : Manager) (pH V : ℚ) (cov : Coverage) : Manager :=
  ((pH, V), cov) :: m

/-- `CoverageManager.get_coverage`. -/
def getCoverage (m : Manager) (pH V : ℚ) : Option Coverage :=
  (m.find? (fun e => e.1.1 == pH && e.1.2 == V)).map (fun e => e.2)

/-- `CoverageManager.get_previous_coverage` (lines 68-81): sort the supplied
`V_list` by `|·|`, locate `V_current` (first occurrence, as `list.index`
does; `None` when absent), and return the stored snapshot of the preceding
entry (`None` when `V_current` is first). -/
def getPreviousCoverage (m : Manager) (pH Vcur : ℚ) (Vlist : List ℚ) :
    Option Coverage :=
  let Vsorted := sortedByAbs Vlist
  match Vsorted.findIdx? (fun v => v == Vcur) with
  | some i =>
      if 0 < i then
        match Vsorted[i-1]? with
        | some prevV => getCoverage m pH prevV
        | none => none
      else none
  | none => none

theorem sortedByAbs_perm (l : List ℚ) : (sortedByAbs l).Perm l :=
  List.perm_insertionSort _ l

theorem sortedByAbs_sortedQ (l : List ℚ) :
    (sortedByAbs l).Sorted (fun a b => absQ a ≤ absQ b) := by
  haveI : IsTotal ℚ (fun a b => absQ a ≤ absQ b) :=
    ⟨fun a b => le_total (absQ a) (absQ b)⟩
  haveI : IsTrans ℚ (fun a b => absQ a ≤ absQ b) :=
    ⟨fun _ _ _ h1 h2 => le_trans h1 h2⟩
  exact List.sorted_insertionSort _ l

theorem sortedByAbs_sorted (l : List ℚ) :
    (sortedByAbs l).Sorted (fun a b => |a| ≤ |b|) :=
  (sortedByAbs_sortedQ l).imp
    (fun h => by rwa [absQ_eq_abs, absQ_eq_abs] at h)

theorem sortedByAbs_eq_of_perm {l₁ l₂ : List ℚ}
    (hperm : l₁.Perm l₂) (hnd : (l₁.map absQ).Nodup) :
    sortedByAbs l₁ = sortedByAbs l₂ := by
  haveI : IsAntisymm ℚ (fun a b => absQ a < absQ b) :=
    ⟨fun a b h1 h2 => absurd (lt_trans h1 h2) (lt_irrefl _)⟩
  have hp1 : (sortedByAbs l₁).Perm l₁ := sortedByAbs_perm l₁
  have hp2 : (sortedByAbs l₂).Perm l₂ := sortedByAbs_perm l₂
  have hperm' : (sortedByAbs l₁).Perm (sortedByAbs l₂) :=
    (hp1.trans hperm).trans hp2.symm
  have hnd2 : (l₂.map absQ).Nodup := (hperm.map _).nodup_iff.mp hnd
  have strict : ∀ l : List ℚ, (l.map absQ).Nodup →
      (sortedByAbs l).Sorted (fun a b => absQ a < absQ b) := by
    intro l hl
    have hs := sortedByAbs_sortedQ l
    have hnds : ((sortedByAbs l).map absQ).Nodup :=
      (((sortedByAbs_perm l).map _).nodup_iff).mpr hl
    have hpw : (sortedByAbs l).Pairwise (fun a b => absQ a ≠ absQ b) :=
      List.Pairwise.of_map absQ (fun a b h => h) hnds
    exact (hs.and hpw).imp (fun h => lt_of_le_of_ne h.1 h.2)
  exact List.eq_of_perm_of_sorted hperm' (strict l₁ hnd) (strict l₂ hnd2)

/-- C5 counterexample: the sweep order is *not* a function of `|V|` alone.
The supplied lists `[1/5, -1/5]` and `[-1/5, 1/5]` have identical absolute
values yet sort (stably) to different orders, so the processing order depends
on the order in which the `V` list is supplied. -/
theorem sweepOrder_counterexample :
    sortedByAbs [1/5, -1/5] = [1/5, -1/5]
    ∧ sortedByAbs [-1/5, 1/5] = [-1/5, 1/5]
    ∧ ([1/5, -1/5] : List ℚ).map absQ = ([-1/5, 1/5] : List ℚ).map absQ
    ∧ sortedByAbs [1/5, -1/5] ≠ sortedByAbs [-1/5, 1/5] := by
  refine ⟨?_, ?_, ?_, ?_⟩ <;>
    norm_num [sortedByAbs, List.insertionSort, List.orderedInsert, absQ]

/-- C5 (amended): for every pH the sweep processes the configured potentials
in ascending-`|V|` order — the processed list is a permutation of `V_list`,
sorted by `|·|`, and for `V_list = [-0.4, 0.6, 0.0, -0.2]` it is exactly
`[0.0, -0.2, -0.4, 0.6]`.  When the absolute values of the supplied
potentials are pairwise distinct the order is a function of the multiset of
values only (independent of supply order); with both signs of one magnitude
present, ties keep the supplied order (stable sort).  `get_previous_coverage`
uses the same ascending-`|V|` ordering: on the example list, the snapshot
returned for `V = -0.4` is the one stored for its ascending-`|V|`
predecessor `-0.2`. -/
theorem sweepOrder_spec (Vlist Vlist' : List ℚ)
    (hperm : Vlist.Perm Vlist')
    (hnd : (Vlist.map absQ).Nodup) :
    (orderedVSteps true Vlist).Perm Vlist
    ∧ (orderedVSteps true Vlist).Sorted (fun a b => |a| ≤ |b|)
    ∧ orderedVSteps true Vlist = orderedVSteps true Vlist'
    ∧ orderedVSteps true [-(2/5), 3/5, 0, -(1/5)] = [0, -(1/5), -(2/5), 3/5]
    ∧ getPreviousCoverage
        [((7, -(1/5)), [("X", 1/4)]), ((7, 0), [("X", 1/2)])]
        7 (-(2/5)) [-(2/5), 3/5, 0, -(1/5)]
        = some [("X", 1/4)] := by
  refine ⟨sortedByAbs_perm Vlist, sortedByAbs_sorted Vlist,
    sortedByAbs_eq_of_perm hperm hnd, ?_, ?_⟩
  · norm_num [orderedVSteps, sortedByAbs, List.insertionSort,
      List.orderedInsert, absQ]
  · norm_num [getPreviousCoverage, getCoverage, sortedByAbs,
      List.insertionSort, List.orderedInsert, absQ, List.findIdx?]

/-- Witness for C5 (amended): instantiated at the concrete list
`[3, -1, 0, 2]` (pairwise-distinct absolute values) and a permutation of it. -/
theorem sweepOrder_spec_witness :
    orderedVSteps true [3, -1, 0, 2] = orderedVSteps true [2, 0, -1, 3] :=
  (sweepOrder_spec [3, -1, 0, 2] [2, 0, -1, 3]
    (by decide) (by decide)).2.2.1

/-! ### The per-pH sweep loop (`run_parameter_sweep`, lines 286-411) -/

/-- The configuration flags consulted by `run_parameter_sweep`:
`use_coverage_propagation`, `enable_sweep_mode`, a non-empty
`executable_path`, `ENFORCE_SITE_BALANCE`, and the two sanitization
constants. -/
structure RunnerConfig where
  useProp : Bool
  sweepMode : Bool
  hasExe : Bool
  enforce : Bool
  eps : ℚ
  maxCov : ℚ
deriving DecidableEq, Repr

/-- Outcome of one external-solver invocation plus coverage extraction:
`failure` is a nonzero exit code (`subprocess.CalledProcessError`) or any
invocation exception; on success, `extracted` is `_extract_final_coverage`'s
result (`none` when `coverage.dat` is missing or malformed). -/
inductive SolverOutcome where
  | success (extracted : Option Coverage)
  | failure
deriving DecidableEq, Repr

/-- One sweep cell: its potential, the data the extractor produced for it,
and how the solver run turns out. -/
structure CellSpec where
  V : ℚ
  data : CellData
  outcome : SolverOutcome
deriving DecidableEq, Repr

/-- The mutable per-pH state: the shared `CoverageManager` contents and the
`previous_coverage` accumulator. -/
structure SweepState where
  manager : Manager
  prev : Option Coverage
deriving DecidableEq, Repr

/-- Lines 386-397: sanitize the extracted snapshot
(`_sanitize_mapping`), and under `ENFORCE_SITE_BALANCE` rebalance it —
rebuild the adsorbate vector from the dict, renormalize, push the values
back and store the free site under `'*'`. -/
def rebalanceFinalCov (eps maxCov : ℚ) (enforce : Bool) (ads : List String)
    (cov : Coverage) : Coverage :=
  let cov₁ := cov.map (fun p => (p.1, sanitizeValue eps maxCov p.2))
  if enforce then
    let adsVals := ads.map (fun a => (covFind cov₁ a).getD 0)
    let r := renormalizeFreeSite eps maxCov ads adsVals
    let cov₂ := (ads.zip r.1).foldl (fun c av => covSet c av.1 av.2) cov₁
    covSet cov₂ "*" r.2
  else cov₁

/-- What one cell records for later inspection: its potential, the seed
branch taken, the seed after resolution, and the data finally passed to
input-file generation. -/
structure CellTrace where
  V : ℚ
  branch : SeedBranch
  seed : CellData
  finalData : CellData
deriving DecidableEq, Repr

/-- One iteration of the inner `for idx, V in enumerate(V_steps)` loop
(lines 303-406).  The `try/except` is embedded by explicit branching: a
`failure` outcome aborts the body after input generation, so the state
mutations (`save_coverage`, `previous_coverage = final_cov`) never run and
the entry state is returned; the `except Exception` clause swallows the
error and the loop continues. -/
def cellStep (cfg : RunnerConfig) (pH : ℚ) (c : CellSpec) (st : SweepState) :
    SweepState × CellTrace :=
  let branch := seedBranch c.V cfg.useProp st.prev
  let seeded := seedResolve cfg.eps cfg.maxCov cfg.useProp c.V st.prev c.data
  let finalData := enforceOrSanitize cfg.eps cfg.maxCov cfg.enforce seeded
  let st' :=
    if cfg.hasExe then
      match c.outcome with
      | .failure => st
      | .success extracted =>
          if cfg.sweepMode then
            match extracted with
            | some cov =>
                if cov.isEmpty then st
                else
                  let cov' := rebalanceFinalCov cfg.eps cfg.maxCov cfg.enforce
                      c.data.adsorbates cov
                  { manager := saveCoverage st.manager pH c.V cov'
                    prev := some cov' }
            | none => st
          else st
    else st
  (st', ⟨c.V, branch, seeded, finalData⟩)

/-- The whole per-pH inner loop: `previous_coverage` starts as `None`
(line 301) and the cells run in order, each seeing the state the previous
one left. -/
def runPH (cfg : RunnerConfig) (pH : ℚ) (cells : List CellSpec)
    (st : SweepState) : SweepState × List CellTrace :=
  match cells with
  | [] => (st, [])
  | c :: rest =>
      let r := cellStep cfg pH c st
      let rr := runPH cfg pH rest r.1
      (rr.1, r.2 :: rr.2)

/-- The outer loop over pH values plus the final export (lines 291-411): the
manager persists across pH values, `previous_coverage` restarts at `None`
for each pH, and the coverage trajectory is exported exactly when sweep mode
is enabled. -/
def runParameterSweep (cfg : RunnerConfig) (plan : List (ℚ × List CellSpec))
    (m0 : Manager) : Manager × List (ℚ × List CellTrace) × Bool :=
  let f := plan.foldl
    (fun acc p =>
      let r := runPH cfg p.1 p.2 ⟨acc.1, none⟩
      (r.1.manager, acc.2 ++ [(p.1, r.2)]))
    (m0, [])
  (f.1, f.2, cfg.sweepMode)

theorem cellStep_trace (cfg : RunnerConfig) (pH : ℚ) (c : CellSpec)
    (st : SweepState) :
    (cellStep cfg pH c st).2
      = ⟨c.V, seedBranch c.V cfg.useProp st.prev,
          seedResolve cfg.eps cfg.maxCov cfg.useProp c.V st.prev c.data,
          enforceOrSanitize cfg.eps cfg.maxCov cfg.enforce
            (seedResolve cfg.eps cfg.maxCov cfg.useProp c.V st.prev c.data)⟩ :=
  rfl

theorem cellStep_failure {c : CellSpec} (cfg : RunnerConfig) (pH : ℚ)
    (st : SweepState) (h : c.outcome = SolverOutcome.failure) :
    (cellStep cfg pH c st).1 = st := by
  unfold cellStep
  by_cases he : cfg.hasExe <;> simp [he, h]

theorem cellStep_sweepOff {cfg : RunnerConfig} (h : cfg.sweepMode = false)
    (pH : ℚ) (c : CellSpec) (st : SweepState) :
    (cellStep cfg pH c st).1 = st := by
  unfold cellStep
  by_cases he : cfg.hasExe
  · cases hc : c.outcome with
    | failure => simp [he, hc]
    | success extracted => simp [he, hc, h]
  · simp [he]

theorem cellStep_cases (cfg : RunnerConfig) (pH : ℚ) (c : CellSpec)
    (st : SweepState) :
    (cellStep cfg pH c st).1 = st
    ∨ ∃ cov, c.outcome = SolverOutcome.success (some cov) ∧ cov.isEmpty = false
        ∧ (cellStep cfg pH c st).1
          = { manager := saveCoverage st.manager pH c.V
                (rebalanceFinalCov cfg.eps cfg.maxCov cfg.enforce
                  c.data.adsorbates cov)
              prev := some (rebalanceFinalCov cfg.eps cfg.maxCov cfg.enforce
                  c.data.adsorbates cov) } := by
  unfold cellStep
  by_cases he : cfg.hasExe
  · cases hc : c.outcome with
    | failure => left; simp [he, hc]
    | success extracted =>
        by_cases hs : cfg.sweepMode
        · cases hx : extracted with
          | none => left; simp [he, hc, hs, hx]
          | some cov =>
              by_cases hemp : cov.isEmpty
              · left; simp [he, hc, hs, hx, hemp]
              · right
                exact ⟨cov, rfl, by simp [hemp],
                  by simp [he, hc, hs, hx, hemp]⟩
        · left; simp [he, hc, hs]
  · left; simp [he]

theorem runPH_append (cfg : RunnerConfig) (pH : ℚ) (xs ys : List CellSpec)
    (st : SweepState) :
    runPH cfg pH (xs ++ ys) st
      = ((runPH cfg pH ys (runPH cfg pH xs st).1).1,
         (runPH cfg pH xs st).2 ++ (runPH cfg pH ys (runPH cfg pH xs st).1).2) := by
  induction xs generalizing st with
  | nil => simp [runPH]
  | cons c rest ih =>
      simp only [List.cons_append, runPH, List.append_eq]
      rw [ih]

theorem runPH_trace_length (cfg : RunnerConfig) (pH : ℚ)
    (cells : List CellSpec) (st : SweepState) :
    (runPH cfg pH cells st).2.length = cells.length := by
  induction cells generalizing st with
  | nil => rfl
  | cons c rest ih => simp [runPH, ih]

theorem runPH_key_not_mem (cfg : RunnerConfig) (pH Vf : ℚ)
    (cells : List CellSpec) (st : SweepState)
    (h0 : (pH, Vf) ∉ st.manager.map Prod.fst)
    (hcells : ∀ c ∈ cells, c.V = Vf → c.outcome = SolverOutcome.failure) :
    (pH, Vf) ∉ (runPH cfg pH cells st).1.manager.map Prod.fst := by
  induction cells generalizing st with
  | nil => exact h0
  | cons c rest ih =>
      have hstep : (pH, Vf) ∉ (cellStep cfg pH c st).1.manager.map Prod.fst := by
        rcases cellStep_cases cfg pH c st with h | ⟨cov, hsucc, _, h⟩
        · rw [h]; exact h0
        · rw [h]
          simp only [saveCoverage, List.map_cons, List.mem_cons]
          rintro (hk | hk)
          · have hV : c.V = Vf := by
              have h2 := congrArg Prod.snd hk
              simp at h2
              exact h2.symm
            rw [hcells c (List.mem_cons_self c rest) hV] at hsucc
            exact SolverOutcome.noConfusion hsucc
          · exact h0 hk
      exact ih _ hstep (fun d hd hv => hcells d (List.mem_cons_of_mem _ hd) hv)

theorem seedResolve_fallback (eps maxCov : ℚ) (useProp : Bool) (V : ℚ)
    (data : CellData) (hV : V ≠ 0) :
    seedResolve eps maxCov useProp V none data
      = { data with free_site_coverage := 1 }
    ∧ seedBranch V useProp none = SeedBranch.fallback := by
  constructor
  · unfold seedResolve
    simp [hV, covTruthy]
  · unfold seedBranch
    simp [hV, covTruthy]

/-- C2 counterexample: a failed solver invocation does *not* always make the
subsequent V step fall back to the "no previous coverage" branch.  With
propagation on, after a successful `V = 1` step (snapshot `{X: 1}`), a failed
`V = 2` step, the `V = 3` step seeds from the *propagated* snapshot of the
`V = 1` step — branch `propagated`, not `fallback`. -/
theorem sweep_failure_counterexample :
    ((runPH ⟨true, true, true, false, defEPS, defMAX⟩ 7
        [⟨1, ⟨["X"], [0], 1⟩, SolverOutcome.success (some [("X", 1)])⟩,
         ⟨2, ⟨["X"], [0], 1⟩, SolverOutcome.failure⟩,
         ⟨3, ⟨["X"], [0], 1⟩, SolverOutcome.success none⟩]
        ⟨[], none⟩).2[2]?).map CellTrace.branch = some SeedBranch.propagated
    ∧ SeedBranch.propagated ≠ SeedBranch.fallback := by
  constructor
  · norm_num [runPH, cellStep, seedBranch, covTruthy, rebalanceFinalCov,
      sanitizeValue, covFind, defEPS, defMAX]
  · decide

/-- C2 (amended): for a sweep cell whose solver invocation fails (nonzero
exit or exception), the per-cell `except` leaves both the `CoverageManager`
and the `previous_coverage` accumulator exactly as they were; with distinct
potentials, no snapshot keyed by that cell ever appears in the manager; the
loop always continues — one trace entry per cell, including every cell after
the failure; and the subsequent V step seeds from the same accumulator state
the failing cell saw, so it falls back to the "no previous coverage" branch
(free site `1.0`, extractor-default activities) precisely when that
accumulator is empty — e.g. when no earlier step of this pH had succeeded —
and not in general. -/
theorem sweep_failure_isolation (cfg : RunnerConfig) (pH : ℚ) (m0 : Manager)
    (pre post : List CellSpec) (c : CellSpec)
    (hfail : c.outcome = SolverOutcome.failure)
    (hnodup : ((pre ++ c :: post).map (fun s => s.V)).Nodup)
    (hm0 : (pH, c.V) ∉ m0.map Prod.fst) :
    (runPH cfg pH (pre ++ [c]) ⟨m0, none⟩).1 = (runPH cfg pH pre ⟨m0, none⟩).1
    ∧ (pH, c.V) ∉
        (runPH cfg pH (pre ++ c :: post) ⟨m0, none⟩).1.manager.map Prod.fst
    ∧ (runPH cfg pH (pre ++ c :: post) ⟨m0, none⟩).2.length
        = pre.length + 1 + post.length
    ∧ (∀ d post', post = d :: post' →
        (runPH cfg pH (pre ++ c :: post) ⟨m0, none⟩).2[pre.length + 1]?
            = some (cellStep cfg pH d (runPH cfg pH pre ⟨m0, none⟩).1).2
        ∧ ((runPH cfg pH pre ⟨m0, none⟩).1.prev = none → d.V ≠ 0 →
            (cellStep cfg pH d (runPH cfg pH pre ⟨m0, none⟩).1).2.branch
                = SeedBranch.fallback
            ∧ (cellStep cfg pH d
                (runPH cfg pH pre ⟨m0, none⟩).1).2.seed.free_site_coverage = 1
            ∧ (cellStep cfg pH d (runPH cfg pH pre ⟨m0, none⟩).1).2.seed.activity
                = d.data.activity)) := by
  have hA : (runPH cfg pH (pre ++ [c]) ⟨m0, none⟩).1
      = (runPH cfg pH pre ⟨m0, none⟩).1 := by
    rw [runPH_append]
    simp only [runPH]
    rw [cellStep_failure cfg pH _ hfail]
  have hcells : ∀ d ∈ pre ++ c :: post, d.V = c.V →
      d.outcome = SolverOutcome.failure := by
    intro d hd hdV
    have hc : c ∈ pre ++ c :: post := by
      simp [List.mem_append, List.mem_cons]
    have := List.inj_on_of_nodup_map hnodup hd hc hdV
    rw [this]
    exact hfail
  refine ⟨hA, ?_, ?_, ?_⟩
  · exact runPH_key_not_mem cfg pH c.V _ _ hm0 hcells
  · rw [runPH_trace_length]
    simp
    ring
  · intro d post' hpost
    subst hpost
    have hsplit : pre ++ c :: d :: post' = (pre ++ [c]) ++ (d :: post') := by
      simp
    have hT1len : (runPH cfg pH (pre ++ [c]) ⟨m0, none⟩).2.length
        = pre.length + 1 := by
      rw [runPH_trace_length]
      simp
    have htrace : (runPH cfg pH (pre ++ c :: d :: post') ⟨m0, none⟩).2[pre.length + 1]?
        = some (cellStep cfg pH d (runPH cfg pH pre ⟨m0, none⟩).1).2 := by
      rw [hsplit, runPH_append]
      simp only
      rw [List.getElem?_append_right (le_of_eq hT1len), hT1len]
      simp only [Nat.sub_self, hA]
      simp [runPH]
    refine ⟨htrace, ?_⟩
    intro hprev hV
    rw [cellStep_trace]
    simp only
    rw [hprev]
    obtain ⟨hres, hbr⟩ := seedResolve_fallback cfg.eps cfg.maxCov cfg.useProp
      d.V d.data hV
    rw [hres, hbr]
    exact ⟨rfl, rfl, rfl⟩

/-- Witness for C2 (amended) at a concrete two-cell sweep whose first cell
fails: the follow-up cell runs and falls back to the default seed. -/
theorem sweep_failure_isolation_witness :
    (runPH ⟨true, true, true, true, defEPS, defMAX⟩ 7
        ([] ++ [⟨1, ⟨["X"], [0], 1⟩, SolverOutcome.failure⟩]) ⟨[], none⟩).1
      = (runPH ⟨true, true, true, true, defEPS, defMAX⟩ 7 [] ⟨[], none⟩).1
    ∧ (7, (1:ℚ)) ∉
        (runPH ⟨true, true, true, true, defEPS, defMAX⟩ 7
          ([] ++ ⟨1, ⟨["X"], [0], 1⟩, SolverOutcome.failure⟩ ::
            [⟨2, ⟨["X"], [0], 1⟩, SolverOutcome.success none⟩])
          ⟨[], none⟩).1.manager.map Prod.fst
    ∧ (runPH ⟨true, true, true, true, defEPS, defMAX⟩ 7
        ([] ++ ⟨1, ⟨["X"], [0], 1⟩, SolverOutcome.failure⟩ ::
          [⟨2, ⟨["X"], [0], 1⟩, SolverOutcome.success none⟩])
        ⟨[], none⟩).2.length = 0 + 1 + 1
    ∧ (∀ d post',
        [⟨2, ⟨["X"], [0], 1⟩, SolverOutcome.success none⟩] = d :: post' →
        (runPH ⟨true, true, true, true, defEPS, defMAX⟩ 7
          ([] ++ ⟨1, ⟨["X"], [0], 1⟩, SolverOutcome.failure⟩ ::
            [⟨2, ⟨["X"], [0], 1⟩, SolverOutcome.success none⟩])
          ⟨[], none⟩).2[0 + 1]?
            = some (cellStep ⟨true, true, true, true, defEPS, defMAX⟩ 7 d
                (runPH ⟨true, true, true, true, defEPS, defMAX⟩ 7 []
                  ⟨[], none⟩).1).2
        ∧ ((runPH ⟨true, true, true, true, defEPS, defMAX⟩ 7 []
              ⟨[], none⟩).1.prev = none → d.V ≠ 0 →
            (cellStep ⟨true, true, true, true, defEPS, defMAX⟩ 7 d
              (runPH ⟨true, true, true, true, defEPS, defMAX⟩ 7 []
                ⟨[], none⟩).1).2.branch = SeedBranch.fallback
            ∧ (cellStep ⟨true, true, true, true, defEPS, defMAX⟩ 7 d
                (runPH ⟨true, true, true, true, defEPS, defMAX⟩ 7 []
                  ⟨[], none⟩).1).2.seed.free_site_coverage = 1
            ∧ (cellStep ⟨true, true, true, true, defEPS, defMAX⟩ 7 d
                (runPH ⟨true, true, true, true, defEPS, defMAX⟩ 7 []
                  ⟨[], none⟩).1).2.seed.activity = d.data.activity)) :=
  sweep_failure_isolation ⟨true, true, true, true, defEPS, defMAX⟩ 7 []
    [] [⟨2, ⟨["X"], [0], 1⟩, SolverOutcome.success none⟩]
    ⟨1, ⟨["X"], [0], 1⟩, SolverOutcome.failure⟩
    rfl (by decide) (by simp)

/-- C10: with `enable_sweep_mode` disabled, the per-pH loop never extracts,
saves or propagates any coverage: the manager is left exactly as it started
(empty stays empty), the `previous_coverage` accumulator stays `None`, every
non-zero-V cell takes the default fallback seed (free site `1.0`, the
extractor's own activities) even when `use_coverage_propagation` is on, and
the trajectory file is not exported. -/
theorem sweepOff_no_propagation (cfg : RunnerConfig) (pH : ℚ)
    (cells : List CellSpec) (m0 : Manager)
    (hs : cfg.sweepMode = false) :
    (runPH cfg pH cells ⟨m0, none⟩).1 = ⟨m0, none⟩
    ∧ (∀ t ∈ (runPH cfg pH cells ⟨m0, none⟩).2,
        t.V ≠ 0 → t.branch = SeedBranch.fallback ∧ t.seed.free_site_coverage = 1)
    ∧ (runParameterSweep cfg [(pH, cells)] m0).2.2 = false := by
  have hmain : ∀ cells' : List CellSpec,
      (runPH cfg pH cells' ⟨m0, none⟩).1 = ⟨m0, none⟩
      ∧ ∀ t ∈ (runPH cfg pH cells' ⟨m0, none⟩).2,
          t.V ≠ 0 → t.branch = SeedBranch.fallback
            ∧ t.seed.free_site_coverage = 1 := by
    intro cells'
    induction cells' with
    | nil => exact ⟨rfl, by intro t ht; simp [runPH] at ht⟩
    | cons c rest ih =>
        have hstep : (cellStep cfg pH c ⟨m0, none⟩).1 = ⟨m0, none⟩ :=
          cellStep_sweepOff hs pH c ⟨m0, none⟩
        constructor
        · simp only [runPH, hstep]
          exact ih.1
        · intro t ht hV
          simp only [runPH, hstep] at ht
          rcases List.mem_cons.mp ht with h | h
          · subst h
            rw [cellStep_trace]
            simp only
            obtain ⟨hres, hbr⟩ := seedResolve_fallback cfg.eps cfg.maxCov
              cfg.useProp c.V c.data (by
                rw [cellStep_trace] at hV
                exact hV)
            exact ⟨hbr, by rw [hres]⟩
          · exact ih.2 t h hV
  refine ⟨(hmain cells).1, (hmain cells).2, ?_⟩
  simp [runParameterSweep, hs]

/-- Witness for C10 at a concrete one-cell sweep with propagation enabled
but sweep mode off. -/
theorem sweepOff_no_propagation_witness :
    (runPH ⟨true, false, true, true, defEPS, defMAX⟩ 7
        [⟨2, ⟨["X"], [0], 1⟩, SolverOutcome.success (some [("X", 1)])⟩]
        ⟨[], none⟩).1 = ⟨[], none⟩
    ∧ (∀ t ∈ (runPH ⟨true, false, true, true, defEPS, defMAX⟩ 7
        [⟨2, ⟨["X"], [0], 1⟩, SolverOutcome.success (some [("X", 1)])⟩]
        ⟨[], none⟩).2,
        t.V ≠ 0 → t.branch = SeedBranch.fallback ∧ t.seed.free_site_coverage = 1)
    ∧ (runParameterSweep ⟨true, false, true, true, defEPS, defMAX⟩
        [(7, [⟨2, ⟨["X"], [0], 1⟩, SolverOutcome.success (some [("X", 1)])⟩])]
        []).2.2 = false :=
  sweepOff_no_propagation ⟨true, false, true, true, defEPS, defMAX⟩ 7
    [⟨2, ⟨["X"], [0], 1⟩, SolverOutcome.success (some [("X", 1)])⟩] [] rfl

/-! ### Reaction-network graph and the RDS finder
(`Streamlit/graph_helper.py`, `Streamlit/Homepage.py`) -/

/-- The `defaultdict(list)` adjacency built by `extract_reactions`:
insertion-ordered keys, each with an ordered neighbour/rate list. -/
abbrev Adj := List (String × List (String × ℚ))

/-- `graph[k]` on a `defaultdict(list)`: the stored list, or `[]` for an
absent key (the implicit insertion of an empty list is unobservable here). -/
def adjGet (g : Adj) (k : String) : List (String × ℚ) :=
  ((g.find? (fun e => e.1 == k)).map (fun e => e.2)).getD []

/-- `graph[k].append(v)`: extend the key's list, creating the key at the end
of the dict when absent (Python dicts preserve insertion order). -/
def adjAppend (g : Adj) (k : String) (v : String × ℚ) : Adj :=
  match g with
  | [] => [(k, [v])]
  | e :: rest => if e.1 == k then (e.1, e.2 ++ [v]) :: rest
                 else e :: adjAppend rest k v

/-- One regex match of `extract_reactions` (line 37-42): an `A -> B` edge
label carrying the forward/backward rate pair already parsed by
`extract_rates` (the regex itself is the abstracted part: a label without a
parsable pair yields `(0, 0)`). -/
structure EdgeMatch where
  reactant : String
  product : String
  fwd : ℚ
  bwd : ℚ
deriving DecidableEq, Repr

/-- `extract_reactions` (lines 33-48): for each matched edge, insert
`(product, fwd - bwd)` under the reactant and the mirror
`(reactant, -(fwd - bwd))` under the product. -/
def extractReactions (ms : List EdgeMatch) : Adj :=
  ms.foldl
    (fun g m =>
      adjAppend (adjAppend g m.reactant (m.product, m.fwd - m.bwd)) m.product
        (m.reactant, -(m.fwd - m.bwd)))
    []

/-- The net rate the RDS key function reads for a path edge `a -> b`: the
rate of the first adjacency entry of `a` whose neighbour is `b` (this is
what `next(rate for n, rate in graph[x[0]] if n == x[1])` resolves to; for
edges produced by the search the entry always exists, so the `0` default is
never taken on a found path). -/
def edgeRate (g : Adj) (a b : String) : ℚ :=
  (((adjGet g a).find? (fun p => p.1 == b)).map (fun p => p.2)).getD 0

/-- Python's `min(·, key=f)`: the first element attaining the minimal key
(later elements replace the running best only on strictly smaller keys). -/
def minByKey (key : α → ℚ) : List α → Option α
  | [] => none
  | x :: xs => some (xs.foldl (fun best y => if key y < key best then y else best) x)

/-- The RDS selection of `find_rds` line 68: the first consecutive path edge
of minimal absolute net rate. -/
def selectRds (g : Adj) (path : List String) : Option (String × String) :=
  minByKey (fun e => absQ (edgeRate g e.1 e.2)) (path.zip path.tail)

/-- A priority-queue entry `(cost, node, path)` as pushed by `find_rds`. -/
structure PQEntry where
  cost : ℚ
  node : String
  path : List String
deriving DecidableEq, Repr

/-- Lexicographic comparison of Python lists of strings. -/
def pathLt : List String → List String → Bool
  | [], [] => false
  | [], _ :: _ => true
  | _ :: _, [] => false
  | a :: as, b :: bs => if a < b then true else if b < a then false else pathLt as bs

/-- Python's tuple comparison on `(cost, node, path)` triples, which is the
order `heapq` pops by. -/
def entryLt (x y : PQEntry) : Bool :=
  if x.cost < y.cost then true
  else if y.cost < x.cost then false
  else if x.node < y.node then true
  else if y.node < x.node then false
  else pathLt x.path y.path

/-- `heapq.heappop`: remove and return a minimal entry under tuple order.
Entries tying on the full tuple are identical, so taking the first minimum
is exact. -/
def popMin (pq : List PQEntry) : Option (PQEntry × List PQEntry) :=
  match pq with
  | [] => none
  | x :: xs =>
      let m := xs.foldl (fun best y => if entryLt y best then y else best) x
      some (m, pq.erase m)

/-- The `while pq:` loop of `find_rds` (lines 58-75), with explicit fuel for
termination (any fuel larger than the number of loop iterations gives the
source behaviour; the `0` case is unreachable for adequate fuel).  Returns
the found path, or `none` when the queue empties. -/
def findRdsLoop (g : Adj) (endN : String) :
    Nat → List PQEntry → List String → Option (List String)
  | 0, _, _ => none
  | fuel + 1, pq, visited =>
      match popMin pq with
      | none => none
      | some (e, rest) =>
          if e.node ∈ visited then findRdsLoop g endN fuel rest visited
          else
            let visited' := e.node :: visited
            let path' := e.path ++ [e.node]
            if e.node = endN then some path'
            else
              let pushes := (adjGet g e.node).filter
                (fun p => !(visited'.contains p.1))
              findRdsLoop g endN fuel
                (rest ++ pushes.map (fun p => ⟨e.cost - p.2, p.1, path'⟩))
                visited'

/-- `find_rds(graph, start, end)`: priority-first search from
`[(0, start, [])]`; on success the result pairs the path with the
minimal-|rate| edge, mirroring the `(path, rds)` return; on exhaustion it
returns `(None, None)`. -/
def findRds (g : Adj) (startN endN : String) (fuel : Nat) :
    Option (List String) × Option (String × String) :=
  match findRdsLoop g endN fuel [⟨0, startN, []⟩] [] with
  | some path => (some path, selectRds g path)
  | none => (none, none)

theorem adjGet_adjAppend_self (g : Adj) (k : String) (v : String × ℚ) :
    adjGet (adjAppend g k v) k = adjGet g k ++ [v] := by
  induction g with
  | nil => simp [adjAppend, adjGet, List.find?]
  | cons e rest ih =>
      by_cases h : e.1 = k
      · simp [adjAppend, adjGet, List.find?, h]
      · have hb : (e.1 == k) = false := beq_false_of_ne h
        simp only [adjAppend, hb]
        simp only [adjGet, List.find?, hb] at ih ⊢
        simpa using ih

theorem adjGet_adjAppend_ne (g : Adj) (k k' : String) (v : String × ℚ)
    (h : k' ≠ k) : adjGet (adjAppend g k v) k' = adjGet g k' := by
  induction g with
  | nil =>
      have hb : (k == k') = false := beq_false_of_ne (Ne.symm h)
      simp [adjAppend, adjGet, List.find?, hb]
  | cons e rest ih =>
      by_cases he : e.1 = k
      · have hb : (e.1 == k) = true := beq_iff_eq.mpr he
        have hb' : (e.1 == k') = false := beq_false_of_ne (by rw [he]; exact h.symm)
        simp [adjAppend, adjGet, List.find?, hb, hb']
      · have hb : (e.1 == k) = false := beq_false_of_ne he
        simp only [adjAppend, hb]
        by_cases he' : e.1 = k'
        · have hb' : (e.1 == k') = true := beq_iff_eq.mpr he'
          simp [adjGet, List.find?, hb']
        · have hb' : (e.1 == k') = false := beq_false_of_ne he'
          simp only [adjGet, List.find?, hb'] at ih ⊢
          simpa using ih

theorem mem_adjGet_adjAppend (g : Adj) (k k' : String) (v w : String × ℚ)
    (h : w ∈ adjGet g k') : w ∈ adjGet (adjAppend g k v) k' := by
  by_cases hk : k' = k
  · subst hk
    rw [adjGet_adjAppend_self]
    exact List.mem_append_left _ h
  · rw [adjGet_adjAppend_ne g k k' v hk]
    exact h

theorem extractReactions_foldl_mono (ms : List EdgeMatch) (g : Adj)
    (k : String) (w : String × ℚ) (h : w ∈ adjGet g k) :
    w ∈ adjGet (ms.foldl (fun g' m =>
      adjAppend (adjAppend g' m.reactant (m.product, m.fwd - m.bwd))
        m.product (m.reactant, -(m.fwd - m.bwd))) g) k := by
  induction ms generalizing g with
  | nil => exact h
  | cons m rest ih =>
      exact ih _ (mem_adjGet_adjAppend _ _ _ _ _ (mem_adjGet_adjAppend _ _ _ _ _ h))

theorem extractReactions_foldl_mem (ms : List EdgeMatch) (m : EdgeMatch)
    (hm : m ∈ ms) (g : Adj) :
    (m.product, m.fwd - m.bwd) ∈ adjGet (ms.foldl (fun g' m' =>
        adjAppend (adjAppend g' m'.reactant (m'.product, m'.fwd - m'.bwd))
          m'.product (m'.reactant, -(m'.fwd - m'.bwd))) g) m.reactant
    ∧ (m.reactant, -(m.fwd - m.bwd)) ∈ adjGet (ms.foldl (fun g' m' =>
        adjAppend (adjAppend g' m'.reactant (m'.product, m'.fwd - m'.bwd))
          m'.product (m'.reactant, -(m'.fwd - m'.bwd))) g) m.product := by
  induction ms generalizing g with
  | nil => cases hm
  | cons m0 rest ih =>
      rcases List.mem_cons.mp hm with h | h
      · subst h
        simp only [List.foldl_cons]
        constructor
        · apply extractReactions_foldl_mono
          apply mem_adjGet_adjAppend
          rw [adjGet_adjAppend_self]
          exact List.mem_append_right _ (List.mem_singleton.mpr rfl)
        · apply extractReactions_foldl_mono
          rw [adjGet_adjAppend_self]
          exact List.mem_append_right _ (List.mem_singleton.mpr rfl)
      · simp only [List.foldl_cons]
        exact ih h _

/-- C7: every parsed labeled edge `A -> B` with forward/backward pair
`(f, b)` appears in the constructed graph as `(B, f - b)` under `A`,
together with its mirror `(A, -(f - b))` under `B`. -/
theorem extractReactions_mirror (ms : List EdgeMatch) (m : EdgeMatch)
    (hm : m ∈ ms) :
    (m.product, m.fwd - m.bwd) ∈ adjGet (extractReactions ms) m.reactant
    ∧ (m.reactant, -(m.fwd - m.bwd)) ∈ adjGet (extractReactions ms) m.product :=
  extractReactions_foldl_mem ms m hm []

/-- Witness for C7 at a concrete two-edge network. -/
theorem extractReactions_mirror_witness :
    (("B" : String), (5 - 2 : ℚ)) ∈
        adjGet (extractReactions [⟨"A", "B", 5, 2⟩, ⟨"B", "C", 1, 0⟩]) "A"
    ∧ (("A" : String), (-(5 - 2) : ℚ)) ∈
        adjGet (extractReactions [⟨"A", "B", 5, 2⟩, ⟨"B", "C", 1, 0⟩]) "B" :=
  extractReactions_mirror [⟨"A", "B", 5, 2⟩, ⟨"B", "C", 1, 0⟩]
    ⟨"A", "B", 5, 2⟩ (List.mem_cons_self _ _)

theorem absQ_nonneg (x : ℚ) : 0 ≤ absQ x := by
  unfold absQ
  split_ifs with h
  · linarith
  · exact not_lt.mp h

theorem absQ_eq_zero {x : ℚ} (h : absQ x = 0) : x = 0 := by
  unfold absQ at h
  split_ifs at h with h'
  · linarith
  · exact h

theorem minByKey_first_min {α : Type} (key : α → ℚ) :
    ∀ (xs : List α) (x : α), ∃ m, minByKey key (x :: xs) = some m
      ∧ (∀ y ∈ x :: xs, key m ≤ key y)
      ∧ ∃ l₁ l₂, x :: xs = l₁ ++ m :: l₂ ∧ ∀ y ∈ l₁, key m < key y := by
  intro xs
  induction xs with
  | nil =>
      intro x
      refine ⟨x, rfl, ?_, [], [], by simp, by simp⟩
      intro y hy
      rw [List.mem_singleton.mp hy]
  | cons y ys ih =>
      intro x
      have hstep : minByKey key (x :: y :: ys)
          = minByKey key ((if key y < key x then y else x) :: ys) := by
        simp [minByKey]
      by_cases hxy : key y < key x
      · obtain ⟨m, hm, hle, l₁, l₂, hdec, hgt⟩ := ih y
        rw [if_pos hxy] at hstep
        refine ⟨m, hstep.trans hm, ?_, x :: l₁, l₂, ?_, ?_⟩
        · intro z hz
          rcases List.mem_cons.mp hz with h | h
          · subst h
            have hmy : key m ≤ key y := hle y (List.mem_cons_self _ _)
            linarith
          · exact hle z h
        · rw [List.cons_append, ← hdec]
        · intro z hz
          rcases List.mem_cons.mp hz with h | h
          · subst h
            have hmy : key m ≤ key y := hle y (List.mem_cons_self _ _)
            linarith
          · exact hgt z h
      · obtain ⟨m, hm, hle, l₁, l₂, hdec, hgt⟩ := ih x
        rw [if_neg hxy] at hstep
        have hxley : key x ≤ key y := not_lt.mp hxy
        have hmx : key m ≤ key x := hle x (List.mem_cons_self _ _)
        refine ⟨m, hstep.trans hm, ?_, ?_⟩
        · intro z hz
          rcases List.mem_cons.mp hz with h | h
          · subst h; exact hmx
          · rcases List.mem_cons.mp h with h' | h'
            · subst h'; linarith
            · exact hle z (List.mem_cons_of_mem _ h')
        · cases l₁ with
          | nil =>
              simp only [List.nil_append] at hdec
              have hxm : x = m := (List.cons.injEq _ _ _ _ ▸ hdec).1
              refine ⟨[], y :: ys, ?_, by simp⟩
              rw [List.nil_append, hxm]
          | cons a l₁' =>
              have hdec' : x = a ∧ ys = l₁' ++ m :: l₂ := by
                rw [List.cons_append] at hdec
                exact ⟨(List.cons.injEq _ _ _ _ ▸ hdec).1,
                       (List.cons.injEq _ _ _ _ ▸ hdec).2⟩
              have hma : key m < key a := hgt a (List.mem_cons_self _ _)
              refine ⟨x :: y :: l₁', l₂, ?_, ?_⟩
              · rw [List.cons_append, List.cons_append, hdec'.2]
              · intro z hz
                rcases List.mem_cons.mp hz with h | h
                · subst h
                  rw [hdec'.1]
                  exact hma
                · rcases List.mem_cons.mp h with h' | h'
                  · subst h'
                    have : key m < key x := hdec'.1 ▸ hma
                    linarith
                  · exact hgt z (List.mem_cons_of_mem _ h')

theorem selectRds_spec (g : Adj) (path : List String)
    (h : path.zip path.tail ≠ []) :
    ∃ m, selectRds g path = some m
      ∧ m ∈ path.zip path.tail
      ∧ (∀ e ∈ path.zip path.tail,
          absQ (edgeRate g m.1 m.2) ≤ absQ (edgeRate g e.1 e.2))
      ∧ (∃ l₁ l₂, path.zip path.tail = l₁ ++ m :: l₂
          ∧ ∀ e ∈ l₁, absQ (edgeRate g m.1 m.2) < absQ (edgeRate g e.1 e.2))
      ∧ (edgeRate g m.1 m.2 = 0
          ↔ ∃ e ∈ path.zip path.tail, edgeRate g e.1 e.2 = 0) := by
  rcases hzip : path.zip path.tail with _ | ⟨x, xs⟩
  · exact absurd hzip h
  · obtain ⟨m, hm, hle, l₁, l₂, hdec, hgt⟩ :=
      minByKey_first_min (fun e => absQ (edgeRate g e.1 e.2)) xs x
    have hmem : m ∈ x :: xs := by
      rw [hdec]
      exact List.mem_append_right _ (List.mem_cons_self _ _)
    refine ⟨m, ?_, hmem, ?_, ?_, ?_⟩
    · unfold selectRds
      rw [hzip]
      exact hm
    · intro e he
      exact hle e he
    · exact ⟨l₁, l₂, hdec, hgt⟩
    · constructor
      · intro h0
        exact ⟨m, hmem, h0⟩
      · rintro ⟨e, he, he0⟩
        have h1 : absQ (edgeRate g m.1 m.2) ≤ absQ (edgeRate g e.1 e.2) :=
          hle e he
        rw [he0] at h1
        have h2 : absQ (0 : ℚ) = 0 := by norm_num [absQ]
        rw [h2] at h1
        exact absQ_eq_zero (le_antisymm h1 (absQ_nonneg _))

/-- The example network: labeled edges `A -> B` and `B -> C`, each with
forward rate 5 and backward rate 0 (net rate 5), and no `A -> C` edge. -/
def rdsExampleGraph : Adj :=
  extractReactions [⟨"A", "B", 5, 0⟩, ⟨"B", "C", 5, 0⟩]

theorem rdsExampleGraph_eq : rdsExampleGraph
    = [("A", [("B", 5)]), ("B", [("A", -5), ("C", 5)]), ("C", [("B", -5)])] := by
  simp [rdsExampleGraph, extractReactions, adjAppend]

theorem rds_loopC3 : findRdsLoop [("A", [("B", 5)]), ("B", [("A", -5), ("C", 5)]),
    ("C", [("B", -5)])] "C" 18 [⟨-10, "C", ["A", "B"]⟩] ["B", "A"]
    = some ["A", "B", "C"] := by
  rw [show (18 : Nat) = 17 + 1 from rfl, findRdsLoop]
  simp [popMin]

theorem rds_loopC2 : findRdsLoop [("A", [("B", 5)]), ("B", [("A", -5), ("C", 5)]),
    ("C", [("B", -5)])] "C" 19 [⟨-5, "B", ["A"]⟩] ["A"]
    = some ["A", "B", "C"] := by
  rw [show (19 : Nat) = 18 + 1 from rfl, findRdsLoop]
  simp [popMin, adjGet]
  norm_num [rds_loopC3]

theorem rds_loopC1 : findRdsLoop [("A", [("B", 5)]), ("B", [("A", -5), ("C", 5)]),
    ("C", [("B", -5)])] "C" 20 [⟨0, "A", []⟩] []
    = some ["A", "B", "C"] := by
  rw [show (20 : Nat) = 19 + 1 from rfl, findRdsLoop]
  simp [popMin, adjGet]
  norm_num [rds_loopC2]

theorem rds_loopD4 : findRdsLoop [("A", [("B", 5)]), ("B", [("A", -5), ("C", 5)]),
    ("C", [("B", -5)])] "D" 17 [] ["C", "B", "A"] = none := by
  rw [show (17 : Nat) = 16 + 1 from rfl, findRdsLoop]
  simp [popMin]

theorem rds_loopD3 : findRdsLoop [("A", [("B", 5)]), ("B", [("A", -5), ("C", 5)]),
    ("C", [("B", -5)])] "D" 18 [⟨-10, "C", ["A", "B"]⟩] ["B", "A"] = none := by
  rw [show (18 : Nat) = 17 + 1 from rfl, findRdsLoop]
  simp [popMin, adjGet]
  norm_num [rds_loopD4]

theorem rds_loopD2 : findRdsLoop [("A", [("B", 5)]), ("B", [("A", -5), ("C", 5)]),
    ("C", [("B", -5)])] "D" 19 [⟨-5, "B", ["A"]⟩] ["A"] = none := by
  rw [show (19 : Nat) = 18 + 1 from rfl, findRdsLoop]
  simp [popMin, adjGet]
  norm_num [rds_loopD3]

theorem rds_loopD1 : findRdsLoop [("A", [("B", 5)]), ("B", [("A", -5), ("C", 5)]),
    ("C", [("B", -5)])] "D" 20 [⟨0, "A", []⟩] [] = none := by
  rw [show (20 : Nat) = 19 + 1 from rfl, findRdsLoop]
  simp [popMin, adjGet]
  norm_num [rds_loopD2]

/-- The counterexample network: `A -> B` with forward 5 / backward 5
(net rate exactly 0) and `B -> C` with net rate 5. -/
def rdsZeroGraph : Adj :=
  extractReactions [⟨"A", "B", 5, 5⟩, ⟨"B", "C", 5, 0⟩]

theorem rdsZeroGraph_eq : rdsZeroGraph
    = [("A", [("B", 0)]), ("B", [("A", 0), ("C", 5)]), ("C", [("B", -5)])] := by
  simp [rdsZeroGraph, extractReactions, adjAppend]

theorem rds_loopZ3 : findRdsLoop [("A", [("B", 0)]), ("B", [("A", 0), ("C", 5)]),
    ("C", [("B", -5)])] "C" 18 [⟨-5, "C", ["A", "B"]⟩] ["B", "A"]
    = some ["A", "B", "C"] := by
  rw [show (18 : Nat) = 17 + 1 from rfl, findRdsLoop]
  simp [popMin]

theorem rds_loopZ2 : findRdsLoop [("A", [("B", 0)]), ("B", [("A", 0), ("C", 5)]),
    ("C", [("B", -5)])] "C" 19 [⟨0, "B", ["A"]⟩] ["A"]
    = some ["A", "B", "C"] := by
  rw [show (19 : Nat) = 18 + 1 from rfl, findRdsLoop]
  simp [popMin, adjGet]
  norm_num [rds_loopZ3]

theorem rds_loopZ1 : findRdsLoop [("A", [("B", 0)]), ("B", [("A", 0), ("C", 5)]),
    ("C", [("B", -5)])] "C" 20 [⟨0, "A", []⟩] []
    = some ["A", "B", "C"] := by
  rw [show (20 : Nat) = 19 + 1 from rfl, findRdsLoop]
  simp [popMin, adjGet]
  norm_num [rds_loopZ2]

/-- C6 counterexample: "no RDS" is *not* reported exactly when every path
edge has net rate 0.  On the network `A -> B` (net 0), `B -> C` (net 5), the
search for `(A, C)` finds path `[A, B, C]` with bottleneck `(A, B)` of net
rate exactly 0, so the handler takes its `rate == 0` branch and reports
"No RDS (rate = 0)" — even though edge `(B, C)` has nonzero net rate 5. -/
theorem findRds_noRds_counterexample :
    findRds rdsZeroGraph "A" "C" 20 = (some ["A", "B", "C"], some ("A", "B"))
    ∧ edgeRate rdsZeroGraph "A" "B" = 0
    ∧ edgeRate rdsZeroGraph "B" "C" = 5
    ∧ (5 : ℚ) ≠ 0 := by
  refine ⟨?_, ?_, ?_, by norm_num⟩
  · rw [findRds, rdsZeroGraph_eq, rds_loopZ1]
    simp [selectRds, minByKey, edgeRate, adjGet, absQ]
    norm_num
  · rw [rdsZeroGraph_eq]
    simp [edgeRate, adjGet]
  · rw [rdsZeroGraph_eq]
    simp [edgeRate, adjGet]

/-- C6 (amended): the RDS finder pairs a found path with the first
consecutive edge of minimal absolute net rate (ties resolve to the earliest
edge in path order); the selected bottleneck has net rate exactly 0 — the
condition under which the `Find RDS` handler prints "No RDS (rate = 0)" —
iff *some* path edge has net rate 0 (not only when all do); when no path
exists the result is `(none, none)`.  On the example graph with edges
`A -> B` (rate 5) and `B -> C` (rate 5) and no `A -> C` edge, the search for
`(A, C)` yields path `[A, B, C]` with bottleneck `(A, B)`, and the search
for `(A, D)` with `D` absent yields `(none, none)`. -/
theorem findRds_spec :
    findRds rdsExampleGraph "A" "C" 20 = (some ["A", "B", "C"], some ("A", "B"))
    ∧ findRds rdsExampleGraph "A" "D" 20 = (none, none)
    ∧ (∀ (g : Adj) (path : List String), path.zip path.tail ≠ [] →
        ∃ m, selectRds g path = some m
          ∧ m ∈ path.zip path.tail
          ∧ (∀ e ∈ path.zip path.tail,
              absQ (edgeRate g m.1 m.2) ≤ absQ (edgeRate g e.1 e.2))
          ∧ (∃ l₁ l₂, path.zip path.tail = l₁ ++ m :: l₂
              ∧ ∀ e ∈ l₁, absQ (edgeRate g m.1 m.2) < absQ (edgeRate g e.1 e.2))
          ∧ (edgeRate g m.1 m.2 = 0
              ↔ ∃ e ∈ path.zip path.tail, edgeRate g e.1 e.2 = 0)) := by
  refine ⟨?_, ?_, fun g path h => selectRds_spec g path h⟩
  · rw [findRds, rdsExampleGraph_eq, rds_loopC1]
    simp [selectRds, minByKey, edgeRate, adjGet, absQ]
  · rw [findRds, rdsExampleGraph_eq, rds_loopD1]

/-- Witness for C6 (amended): the RDS-selection clause instantiated on the
example graph's found path `[A, B, C]`. -/
theorem findRds_spec_witness :
    ∃ m, selectRds rdsExampleGraph ["A", "B", "C"] = some m
      ∧ m ∈ (["A", "B", "C"] : List String).zip (["A", "B", "C"] : List String).tail
      ∧ (∀ e ∈ (["A", "B", "C"] : List String).zip
            (["A", "B", "C"] : List String).tail,
          absQ (edgeRate rdsExampleGraph m.1 m.2)
            ≤ absQ (edgeRate rdsExampleGraph e.1 e.2))
      ∧ (∃ l₁ l₂, (["A", "B", "C"] : List String).zip
            (["A", "B", "C"] : List String).tail = l₁ ++ m :: l₂
          ∧ ∀ e ∈ l₁, absQ (edgeRate rdsExampleGraph m.1 m.2)
              < absQ (edgeRate rdsExampleGraph e.1 e.2))
      ∧ (edgeRate rdsExampleGraph m.1 m.2 = 0
          ↔ ∃ e ∈ (["A", "B", "C"] : List String).zip
              (["A", "B", "C"] : List String).tail,
              edgeRate rdsExampleGraph e.1 e.2 = 0) :=
  findRds_spec.2.2 rdsExampleGraph ["A", "B", "C"] (by simp)

/-! ### Reaction-line formatting round-trip
(`simulation_runner.py`, `_format_reaction_line` lines 157-185) -/

abbrev Tok := List Char

def padTok (w : Nat) (s : Tok) : Tok := s ++ List.replicate (w - s.length) ' '

def isWsC (c : Char) : Bool := c == ' ' || c == '\n'

/-- Python's `str.split(sep)` for a one-character separator, over character
lists (the re-split step of the spec's round-trip check). -/
def splitOnC (sep : Char) : Tok → List Tok
  | [] => [[]]
  | c :: rest =>
      if c = sep then [] :: splitOnC sep rest
      else
        match splitOnC sep rest with
        | [] => [[c]]
        | t :: ts => (c :: t) :: ts

/-- Splitting at the first `=>` occurrence (the other re-split separator of
the round-trip check). -/
def splitArrow : Tok → Tok × Tok
  | [] => ([], [])
  | [c] => ([c], [])
  | c₁ :: c₂ :: rest =>
      if c₁ = '=' ∧ c₂ = '>' then ([], rest)
      else ((c₁ :: (splitArrow (c₂ :: rest)).1), (splitArrow (c₂ :: rest)).2)

/-- Python's `str.strip()` restricted to the layout whitespace the formatter
emits (spaces and the final newline). -/
def trimTok (s : Tok) : Tok :=
  ((s.dropWhile isWsC).reverse.dropWhile isWsC).reverse

/-- No character of `t` equals `sep`. -/
def NoC (sep : Char) (t : Tok) : Prop := ∀ c ∈ t, c ≠ sep

/-- Every character of `t` is layout whitespace. -/
def AllWs (t : Tok) : Prop := ∀ c ∈ t, isWsC c = true

theorem NoC_nil (sep : Char) : NoC sep [] := by simp [NoC]

theorem NoC_cons {sep c : Char} {t : Tok} (h1 : c ≠ sep) (h2 : NoC sep t) :
    NoC sep (c :: t) := by
  intro d hd
  rcases List.mem_cons.mp hd with h | h
  · subst h; exact h1
  · exact h2 d h

theorem NoC_append {sep : Char} {t u : Tok} (h1 : NoC sep t) (h2 : NoC sep u) :
    NoC sep (t ++ u) := by
  intro d hd
  rcases List.mem_append.mp hd with h | h
  · exact h1 d h
  · exact h2 d h

theorem NoC_replicate {sep c : Char} (h : c ≠ sep) (n : Nat) :
    NoC sep (List.replicate n c) := by
  intro d hd
  rw [List.eq_of_mem_replicate hd]
  exact h

theorem NoC_pad {sep : Char} (hs : sep ≠ ' ') {t : Tok} (h : NoC sep t)
    (w : Nat) : NoC sep (padTok w t) :=
  NoC_append h (NoC_replicate (Ne.symm hs) _)

theorem AllWs_nil : AllWs [] := by simp [AllWs]

theorem AllWs_cons {c : Char} {t : Tok} (h1 : isWsC c = true) (h2 : AllWs t) :
    AllWs (c :: t) := by
  intro d hd
  rcases List.mem_cons.mp hd with h | h
  · subst h; exact h1
  · exact h2 d h

theorem AllWs_append {t u : Tok} (h1 : AllWs t) (h2 : AllWs u) :
    AllWs (t ++ u) := by
  intro d hd
  rcases List.mem_append.mp hd with h | h
  · exact h1 d h
  · exact h2 d h

theorem AllWs_replicate (n : Nat) : AllWs (List.replicate n ' ') := by
  intro d hd
  rw [List.eq_of_mem_replicate hd]
  rfl

theorem splitOnC_no_sep {sep : Char} {xs : Tok} (h : NoC sep xs) :
    splitOnC sep xs = [xs] := by
  induction xs with
  | nil => rfl
  | cons c rest ih =>
      have hc : c ≠ sep := h c (List.mem_cons_self _ _)
      have hr : NoC sep rest := fun d hd => h d (List.mem_cons_of_mem _ hd)
      rw [splitOnC, if_neg hc, ih hr]

theorem splitOnC_append {sep : Char} {xs : Tok} (h : NoC sep xs) (ys : Tok) :
    splitOnC sep (xs ++ sep :: ys) = xs :: splitOnC sep ys := by
  induction xs with
  | nil =>
      simp [splitOnC]
  | cons c rest ih =>
      have hc : c ≠ sep := h c (List.mem_cons_self _ _)
      have hr : NoC sep rest := fun d hd => h d (List.mem_cons_of_mem _ hd)
      rw [List.cons_append, splitOnC, if_neg hc, ih hr]

theorem splitArrow_append {xs : Tok} (h : NoC '=' xs) (ys : Tok) :
    splitArrow (xs ++ '=' :: '>' :: ys) = (xs, ys) := by
  induction xs with
  | nil =>
      rw [List.nil_append, splitArrow, if_pos ⟨rfl, rfl⟩]
  | cons c rest ih =>
      have hc : c ≠ '=' := h c (List.mem_cons_self _ _)
      have hr : NoC '=' rest := fun d hd => h d (List.mem_cons_of_mem _ hd)
      rw [List.cons_append]
      rcases hx : rest ++ '=' :: '>' :: ys with _ | ⟨d, ds⟩
      · exact absurd hx (by simp)
      · rw [splitArrow]
        · rw [if_neg (by rintro ⟨h1, h2⟩; exact hc h1), ← hx, ih hr]

theorem dropWhile_allws_append {u : Tok} (hu : AllWs u) (l : Tok) :
    (u ++ l).dropWhile isWsC = l.dropWhile isWsC := by
  induction u with
  | nil => rfl
  | cons c rest ih =>
      have hc : isWsC c = true := hu c (List.mem_cons_self _ _)
      have hr : AllWs rest := fun d hd => hu d (List.mem_cons_of_mem _ hd)
      rw [List.cons_append, List.dropWhile_cons_of_pos hc, ih hr]

theorem dropWhile_allws_nil {u : Tok} (hu : AllWs u) :
    u.dropWhile isWsC = [] := by
  have := dropWhile_allws_append hu []
  rwa [List.append_nil] at this

theorem dropWhile_none {l : Tok} (h : ∀ c ∈ l, isWsC c = false) :
    l.dropWhile isWsC = l := by
  cases l with
  | nil => rfl
  | cons c rest =>
      exact List.dropWhile_cons_of_neg (by simp [h c (List.mem_cons_self _ _)])

theorem AllWs_reverse {u : Tok} (hu : AllWs u) : AllWs u.reverse := by
  intro d hd
  exact hu d (List.mem_reverse.mp hd)

theorem trim_sandwich {u t v : Tok} (hu : AllWs u) (hv : AllWs v)
    (ht : ∀ c ∈ t, isWsC c = false) : trimTok (u ++ (t ++ v)) = t := by
  unfold trimTok
  rw [dropWhile_allws_append hu]
  cases t with
  | nil =>
      rw [List.nil_append, dropWhile_allws_nil hv]
      rfl
  | cons c t' =>
      rw [List.cons_append,
          List.dropWhile_cons_of_neg (by simp [ht c (List.mem_cons_self _ _)])]
      have h1 : (c :: (t' ++ v)).reverse = v.reverse ++ (t'.reverse ++ [c]) := by
        simp
      rw [h1, dropWhile_allws_append (AllWs_reverse hv), dropWhile_none ?hnone]
      case hnone =>
        intro d hd
        rcases List.mem_append.mp hd with h | h
        · exact ht d (List.mem_cons_of_mem _ (List.mem_reverse.mp h))
        · rw [List.mem_singleton.mp h]
          exact ht c (List.mem_cons_self _ _)
      simp

/-- `_format_reaction_line` (lines 157-185), character-exact: species and
the `str`/`format` renderings of the numbers (`pre` is the `:<10.2e`
rendering of the pre-exponential factor, `ea`/`eb` the `str` renderings of
the activation energies) are supplied as character lists; the layout —
slot-dependent variants, fixed f-string widths, separators and the trailing
`" \n"` — mirrors the source line by line. -/
def formatReactionLine (r1 r2 r3 p1 p2 p3 pre ea eb : Tok) : Tok :=
  let tailSeg : Tok := ";".toList ++ padTok 10 pre ++ " ; ".toList ++ padTok 10 pre
      ++ " ; ".toList ++ padTok 10 ea ++ " ; ".toList ++ padTok 10 eb ++ " \n".toList
  if r3 ≠ [] then
    if p3 ≠ [] then
      "AR; ".toList ++ padTok 15 r1 ++ " + ".toList ++ padTok 15 r2 ++ " + ".toList
        ++ padTok 5 r3 ++ " => ".toList ++ padTok 15 p1 ++ " + ".toList ++ padTok 15 p2
        ++ " + ".toList ++ padTok 7 p3 ++ tailSeg
    else
      "AR; ".toList ++ padTok 15 r1 ++ " + ".toList ++ padTok 15 r2 ++ " + ".toList
        ++ padTok 5 r3 ++ " => ".toList ++ padTok 15 p1 ++ " + ".toList ++ padTok 20 p2
        ++ tailSeg
  else if r2 ≠ [] then
    if p3 ≠ [] then
      "AR; ".toList ++ padTok 15 r1 ++ " + ".toList ++ padTok 14 r2 ++ " => ".toList
        ++ padTok 10 p1 ++ " + ".toList ++ padTok 15 p2 ++ " + ".toList ++ padTok 7 p3
        ++ tailSeg
    else if p2 ≠ [] then
      "AR; ".toList ++ padTok 15 r1 ++ " + ".toList ++ padTok 15 r2 ++ " => ".toList
        ++ padTok 15 p1 ++ " + ".toList ++ padTok 20 p2 ++ tailSeg
    else
      "AR; ".toList ++ padTok 15 r1 ++ " + ".toList ++ padTok 15 r2 ++ " => ".toList
        ++ padTok 15 p1 ++ List.replicate 23 ' ' ++ tailSeg
  else
    if p2 ≠ [] then
      "AR; ".toList ++ padTok 15 r1 ++ " ".toList ++ List.replicate 17 ' '
        ++ " => ".toList ++ padTok 15 p1 ++ " + ".toList ++ padTok 20 p2 ++ tailSeg
    else
      "AR; ".toList ++ padTok 15 r1 ++ " ".toList ++ List.replicate 17 ' '
        ++ " => ".toList ++ padTok 15 p1 ++ List.replicate 23 ' ' ++ tailSeg

/-- One side of the arrow re-split on `+`, trimmed, empty tokens dropped:
the species list the spec's round-trip check recovers. -/
def parseSpecies (side : Tok) : List Tok :=
  ((splitOnC '+' side).map trimTok).filter (fun t => !t.isEmpty)

/-- The spec's re-split of a generated reaction line: split on `;`, split
the second field on `=>`, recover both species lists and the trimmed `Ea`
(field 4) and `Eb` (field 5) renderings. -/
def parseReactionLine (line : Tok) : List Tok × List Tok × Tok × Tok :=
  ((parseSpecies (splitArrow ((splitOnC ';' line).getD 1 [])).1),
   (parseSpecies (splitArrow ((splitOnC ';' line).getD 1 [])).2),
   trimTok ((splitOnC ';' line).getD 4 []),
   trimTok ((splitOnC ';' line).getD 5 []))

/-- A well-formed species token: no layout whitespace and none of the
formatter's separator characters. -/
def CleanTok (t : Tok) : Prop :=
  ∀ c ∈ t, isWsC c = false ∧ c ≠ ';' ∧ c ≠ '+' ∧ c ≠ '='

def CleanNum (t : Tok) : Prop := ∀ c ∈ t, isWsC c = false ∧ c ≠ ';'

theorem CleanNum_noSemi {t : Tok} (h : CleanNum t) : NoC ';' t :=
  fun c hc => (h c hc).2

theorem CleanNum_noWs {t : Tok} (h : CleanNum t) : ∀ c ∈ t, isWsC c = false :=
  fun c hc => (h c hc).1

theorem CleanTok_noSemi {t : Tok} (h : CleanTok t) : NoC ';' t :=
  fun c hc => (h c hc).2.1

theorem CleanTok_noPlus {t : Tok} (h : CleanTok t) : NoC '+' t :=
  fun c hc => (h c hc).2.2.1

theorem CleanTok_noEq {t : Tok} (h : CleanTok t) : NoC '=' t :=
  fun c hc => (h c hc).2.2.2

theorem CleanTok_noWs {t : Tok} (h : CleanTok t) : ∀ c ∈ t, isWsC c = false :=
  fun c hc => (h c hc).1

theorem parse_line_helper (xs ys pre ea eb : Tok)
    (hxs_semi : NoC ';' xs) (hxs_eq : NoC '=' xs) (hys_semi : NoC ';' ys)
    (hpre : NoC ';' pre) (hea : CleanNum ea) (heb : CleanNum eb) :
    parseReactionLine (['A','R'] ++ ';' ::
        ((xs ++ '=' :: '>' :: ys)
         ++ ';' :: ((pre ++ (List.replicate (10 - pre.length) ' ' ++ [' ']))
          ++ ';' :: ((' ' :: (pre ++ (List.replicate (10 - pre.length) ' ' ++ [' '])))
           ++ ';' :: ((' ' :: (ea ++ (List.replicate (10 - ea.length) ' ' ++ [' '])))
            ++ ';' :: (' ' :: (eb ++ (List.replicate (10 - eb.length) ' '
                ++ [' ', '\n']))))))))
      = (parseSpecies xs, parseSpecies ys, ea, eb) := by
  have har : NoC ';' ['A', 'R'] := by simp [NoC]
  have hmid : NoC ';' (xs ++ '=' :: '>' :: ys) :=
    NoC_append hxs_semi (NoC_cons (by decide) (NoC_cons (by decide) hys_semi))
  have hsp : NoC ';' [' '] := by simp [NoC]
  have hspn : NoC ';' [' ', '\n'] := by simp [NoC]
  have hrep : ∀ n : Nat, NoC ';' (List.replicate n ' ') :=
    fun n => NoC_replicate (by decide) n
  have hF2 : NoC ';' (pre ++ (List.replicate (10 - pre.length) ' ' ++ [' '])) :=
    NoC_append hpre (NoC_append (hrep _) hsp)
  have hF3 : NoC ';' (' ' :: (pre ++ (List.replicate (10 - pre.length) ' '
      ++ [' ']))) := NoC_cons (by decide) hF2
  have hF4 : NoC ';' (' ' :: (ea ++ (List.replicate (10 - ea.length) ' '
      ++ [' ']))) :=
    NoC_cons (by decide)
      (NoC_append (CleanNum_noSemi hea) (NoC_append (hrep _) hsp))
  have hF5 : NoC ';' (' ' :: (eb ++ (List.replicate (10 - eb.length) ' '
      ++ [' ', '\n']))) :=
    NoC_cons (by decide)
      (NoC_append (CleanNum_noSemi heb) (NoC_append (hrep _) hspn))
  unfold parseReactionLine
  rw [splitOnC_append har, splitOnC_append hmid, splitOnC_append hF2,
      splitOnC_append hF3, splitOnC_append hF4, splitOnC_no_sep hF5]
  simp only [List.getD, List.get?, Option.getD_some]
  rw [splitArrow_append hxs_eq]
  have hea' : trimTok (' ' :: (ea ++ (List.replicate (10 - ea.length) ' '
      ++ [' ']))) = ea :=
    trim_sandwich (u := [' ']) (by simp [AllWs, isWsC])
      (AllWs_append (AllWs_replicate _) (by simp [AllWs, isWsC]))
      (CleanNum_noWs hea)
  have heb' : trimTok (' ' :: (eb ++ (List.replicate (10 - eb.length) ' '
      ++ [' ', '\n']))) = eb :=
    trim_sandwich (u := [' ']) (by simp [AllWs, isWsC])
      (AllWs_append (AllWs_replicate _) (by simp [AllWs, isWsC]))
      (CleanNum_noWs heb)
  rw [hea', heb']

theorem AllWs_noC {sep : Char} (hsep : isWsC sep = false) {w : Tok}
    (h : AllWs w) : NoC sep w := by
  intro c hc hceq
  have hcw := h c hc
  rw [hceq, hsep] at hcw
  exact Bool.noConfusion hcw

theorem parseSpecies_one {a w : Tok} (ha : CleanTok a) (hw : AllWs w) :
    parseSpecies (' ' :: (a ++ w)) = [a].filter (fun t => !t.isEmpty) := by
  unfold parseSpecies
  have hfree : NoC '+' (' ' :: (a ++ w)) :=
    NoC_cons (by decide)
      (NoC_append (CleanTok_noPlus ha) (AllWs_noC (by decide) hw))
  rw [splitOnC_no_sep hfree]
  have htr : trimTok (' ' :: (a ++ w)) = a :=
    trim_sandwich (u := [' ']) (by simp [AllWs, isWsC]) hw (CleanTok_noWs ha)
  simp only [List.map, htr]

theorem parseSpecies_two {a b wa wb : Tok} (ha : CleanTok a) (hb : CleanTok b)
    (hwa : AllWs wa) (hwb : AllWs wb) :
    parseSpecies (' ' :: (a ++ (wa ++ (' ' :: '+' :: ' ' :: (b ++ wb)))))
      = [a, b].filter (fun t => !t.isEmpty) := by
  unfold parseSpecies
  have hshape : ' ' :: (a ++ (wa ++ (' ' :: '+' :: ' ' :: (b ++ wb))))
      = (' ' :: (a ++ (wa ++ [' ']))) ++ '+' :: (' ' :: (b ++ wb)) := by
    simp
  have hfree1 : NoC '+' (' ' :: (a ++ (wa ++ [' ']))) :=
    NoC_cons (by decide)
      (NoC_append (CleanTok_noPlus ha)
        (NoC_append (AllWs_noC (by decide) hwa) (by simp [NoC])))
  have hfree2 : NoC '+' (' ' :: (b ++ wb)) :=
    NoC_cons (by decide)
      (NoC_append (CleanTok_noPlus hb) (AllWs_noC (by decide) hwb))
  rw [hshape, splitOnC_append hfree1, splitOnC_no_sep hfree2]
  have htr1 : trimTok (' ' :: (a ++ (wa ++ [' ']))) = a :=
    trim_sandwich (u := [' ']) (by simp [AllWs, isWsC])
      (AllWs_append hwa (by simp [AllWs, isWsC])) (CleanTok_noWs ha)
  have htr2 : trimTok (' ' :: (b ++ wb)) = b :=
    trim_sandwich (u := [' ']) (by simp [AllWs, isWsC]) hwb (CleanTok_noWs hb)
  simp only [List.map, htr1, htr2]

theorem parseSpecies_three {a b c wa wb wc : Tok} (ha : CleanTok a)
    (hb : CleanTok b) (hc : CleanTok c) (hwa : AllWs wa) (hwb : AllWs wb)
    (hwc : AllWs wc) :
    parseSpecies (' ' :: (a ++ (wa ++ (' ' :: '+' :: ' ' :: (b ++ (wb
        ++ (' ' :: '+' :: ' ' :: (c ++ wc))))))))
      = [a, b, c].filter (fun t => !t.isEmpty) := by
  unfold parseSpecies
  have hshape : ' ' :: (a ++ (wa ++ (' ' :: '+' :: ' ' :: (b ++ (wb
        ++ (' ' :: '+' :: ' ' :: (c ++ wc)))))))
      = (' ' :: (a ++ (wa ++ [' ']))) ++ '+' ::
        ((' ' :: (b ++ (wb ++ [' ']))) ++ '+' :: (' ' :: (c ++ wc))) := by
    simp
  have hfree1 : NoC '+' (' ' :: (a ++ (wa ++ [' ']))) :=
    NoC_cons (by decide)
      (NoC_append (CleanTok_noPlus ha)
        (NoC_append (AllWs_noC (by decide) hwa) (by simp [NoC])))
  have hfree2 : NoC '+' (' ' :: (b ++ (wb ++ [' ']))) :=
    NoC_cons (by decide)
      (NoC_append (CleanTok_noPlus hb)
        (NoC_append (AllWs_noC (by decide) hwb) (by simp [NoC])))
  have hfree3 : NoC '+' (' ' :: (c ++ wc)) :=
    NoC_cons (by decide)
      (NoC_append (CleanTok_noPlus hc) (AllWs_noC (by decide) hwc))
  rw [hshape, splitOnC_append hfree1, splitOnC_append hfree2,
      splitOnC_no_sep hfree3]
  have htr1 : trimTok (' ' :: (a ++ (wa ++ [' ']))) = a :=
    trim_sandwich (u := [' ']) (by simp [AllWs, isWsC])
      (AllWs_append hwa (by simp [AllWs, isWsC])) (CleanTok_noWs ha)
  have htr2 : trimTok (' ' :: (b ++ (wb ++ [' ']))) = b :=
    trim_sandwich (u := [' ']) (by simp [AllWs, isWsC])
      (AllWs_append hwb (by simp [AllWs, isWsC])) (CleanTok_noWs hb)
  have htr3 : trimTok (' ' :: (c ++ wc)) = c :=
    trim_sandwich (u := [' ']) (by simp [AllWs, isWsC]) hwc (CleanTok_noWs hc)
  simp only [List.map, htr1, htr2, htr3]

theorem NoC_padSeg {sep : Char} (hsp : sep ≠ ' ') {t rest : Tok} {n : Nat}
    (ht : NoC sep t) (hrest : NoC sep rest) :
    NoC sep (t ++ (List.replicate n ' ' ++ rest)) :=
  NoC_append ht (NoC_append (NoC_replicate (Ne.symm hsp) n) hrest)

/-- C8: for every reactant/product slot-count combination that
`_format_reaction_line` lays out (all populated-slot patterns except a lone
reactant with three products, which the final two layouts cannot carry),
re-splitting the generated line on `=>` and `;`, then on `+`, and trimming
the fixed-width padding reproduces exactly the non-empty reactant species,
the non-empty product species, and the `Ea` and `Eb` values supplied as
input.  Tokens are species/number renderings: no whitespace, `;`, `+` or `=`
characters (and no `;` in the pre-exponential rendering). -/
theorem formatReactionLine_roundtrip (r1 r2 r3 p1 p2 p3 pre ea eb : Tok)
    (h1 : CleanTok r1) (h2 : CleanTok r2) (h3 : CleanTok r3)
    (h4 : CleanTok p1) (h5 : CleanTok p2) (h6 : CleanTok p3)
    (hpre : NoC ';' pre) (hea : CleanNum ea) (heb : CleanNum eb)
    (hcombo : ¬(r3 = [] ∧ r2 = [] ∧ p3 ≠ [])) :
    parseReactionLine (formatReactionLine r1 r2 r3 p1 p2 p3 pre ea eb)
      = ([r1, r2, r3].filter (fun t => !t.isEmpty),
         [p1, p2, p3].filter (fun t => !t.isEmpty), ea, eb) := by
  have hXSfull : ∀ (a b : Tok) (wa : Nat), CleanTok a → CleanTok b →
      NoC ';' (' ' :: (a ++ (List.replicate wa ' '
        ++ (' ' :: '+' :: ' ' :: (b ++ (List.replicate (5 - r3.length) ' '
        ++ [' '])))))) := by
    intro a b wa ha hb
    exact NoC_cons (by decide) (NoC_padSeg (by decide) (CleanTok_noSemi ha)
      (NoC_cons (by decide) (NoC_cons (by decide) (NoC_cons (by decide)
        (NoC_padSeg (by decide) (CleanTok_noSemi hb) (by simp [NoC]))))))
  by_cases hr3 : r3 = []
  · by_cases hr2 : r2 = []
    · have hp3 : p3 = [] := by
        by_contra hx
        exact hcombo ⟨hr3, hr2, hx⟩
      subst hr3; subst hr2; subst hp3
      by_cases hp2 : p2 = []
      · -- branch G: one reactant, one product
        subst hp2
        have hline : formatReactionLine r1 [] [] p1 [] [] pre ea eb
            = ['A','R'] ++ ';' ::
              (((' ' :: (r1 ++ (List.replicate (15 - r1.length) ' '
                  ++ (' ' :: (List.replicate 17 ' ' ++ [' '])))))
                ++ '=' :: '>' ::
                (' ' :: (p1 ++ (List.replicate (15 - p1.length) ' '
                  ++ List.replicate 23 ' '))))
               ++ ';' ::
               ((pre ++ (List.replicate (10 - pre.length) ' ' ++ [' ']))
                ++ ';' ::
                ((' ' :: (pre ++ (List.replicate (10 - pre.length) ' ' ++ [' '])))
                 ++ ';' ::
                 ((' ' :: (ea ++ (List.replicate (10 - ea.length) ' ' ++ [' '])))
                  ++ ';' ::
                  (' ' :: (eb ++ (List.replicate (10 - eb.length) ' '
                    ++ [' ', '\n']))))))) := by
          simp [formatReactionLine, padTok]
        rw [hline, parse_line_helper _ _ _ _ _
          (NoC_cons (by decide) (NoC_padSeg (by decide) (CleanTok_noSemi h1)
            (NoC_cons (by decide) (NoC_append (NoC_replicate (by decide) _)
              (by simp [NoC])))))
          (NoC_cons (by decide) (NoC_padSeg (by decide) (CleanTok_noEq h1)
            (NoC_cons (by decide) (NoC_append (NoC_replicate (by decide) _)
              (by simp [NoC])))))
          (NoC_cons (by decide) (NoC_padSeg (by decide) (CleanTok_noSemi h4)
            (NoC_replicate (by decide) _)))
          hpre hea heb]
        rw [parseSpecies_one h1 (AllWs_append (AllWs_replicate _)
              (AllWs_cons (by rfl) (AllWs_append (AllWs_replicate _)
                (by simp [AllWs, isWsC]))))]
        rw [parseSpecies_one h4 (AllWs_append (AllWs_replicate _)
              (AllWs_replicate _))]
        simp [List.filter]
      · -- branch F: one reactant, two products
        have hline : formatReactionLine r1 [] [] p1 p2 [] pre ea eb
            = ['A','R'] ++ ';' ::
              (((' ' :: (r1 ++ (List.replicate (15 - r1.length) ' '
                  ++ (' ' :: (List.replicate 17 ' ' ++ [' '])))))
                ++ '=' :: '>' ::
                (' ' :: (p1 ++ (List.replicate (15 - p1.length) ' '
                  ++ (' ' :: '+' :: ' ' :: (p2 ++ List.replicate (20 - p2.length) ' '))))))
               ++ ';' ::
               ((pre ++ (List.replicate (10 - pre.length) ' ' ++ [' ']))
                ++ ';' ::
                ((' ' :: (pre ++ (List.replicate (10 - pre.length) ' ' ++ [' '])))
                 ++ ';' ::
                 ((' ' :: (ea ++ (List.replicate (10 - ea.length) ' ' ++ [' '])))
                  ++ ';' ::
                  (' ' :: (eb ++ (List.replicate (10 - eb.length) ' '
                    ++ [' ', '\n']))))))) := by
          simp [formatReactionLine, padTok, hp2]
        rw [hline, parse_line_helper _ _ _ _ _
          (NoC_cons (by decide) (NoC_padSeg (by decide) (CleanTok_noSemi h1)
            (NoC_cons (by decide) (NoC_append (NoC_replicate (by decide) _)
              (by simp [NoC])))))
          (NoC_cons (by decide) (NoC_padSeg (by decide) (CleanTok_noEq h1)
            (NoC_cons (by decide) (NoC_append (NoC_replicate (by decide) _)
              (by simp [NoC])))))
          (NoC_cons (by decide) (NoC_padSeg (by decide) (CleanTok_noSemi h4)
            (NoC_cons (by decide) (NoC_cons (by decide) (NoC_cons (by decide)
              (NoC_append (CleanTok_noSemi h5) (NoC_replicate (by decide) _)))))))
          hpre hea heb]
        rw [parseSpecies_one h1 (AllWs_append (AllWs_replicate _)
              (AllWs_cons (by rfl) (AllWs_append (AllWs_replicate _)
                (by simp [AllWs, isWsC]))))]
        rw [parseSpecies_two h4 h5 (AllWs_replicate _) (AllWs_replicate _)]
        simp [List.filter]
    · -- r3 = [], r2 ≠ []: branches C, D, E
      subst hr3
      by_cases hp3 : p3 = []
      · subst hp3
        by_cases hp2 : p2 = []
        · -- branch E: two reactants, one product
          subst hp2
          have hline : formatReactionLine r1 r2 [] p1 [] [] pre ea eb
              = ['A','R'] ++ ';' ::
                (((' ' :: (r1 ++ (List.replicate (15 - r1.length) ' '
                    ++ (' ' :: '+' :: ' ' :: (r2 ++ (List.replicate (15 - r2.length) ' '
                    ++ [' ']))))))
                  ++ '=' :: '>' ::
                  (' ' :: (p1 ++ (List.replicate (15 - p1.length) ' '
                    ++ List.replicate 23 ' '))))
                 ++ ';' ::
                 ((pre ++ (List.replicate (10 - pre.length) ' ' ++ [' ']))
                  ++ ';' ::
                  ((' ' :: (pre ++ (List.replicate (10 - pre.length) ' ' ++ [' '])))
                   ++ ';' ::
                   ((' ' :: (ea ++ (List.replicate (10 - ea.length) ' ' ++ [' '])))
                    ++ ';' ::
                    (' ' :: (eb ++ (List.replicate (10 - eb.length) ' '
                      ++ [' ', '\n']))))))) := by
            simp [formatReactionLine, padTok, hr2]
          rw [hline, parse_line_helper _ _ _ _ _
            (NoC_cons (by decide) (NoC_padSeg (by decide) (CleanTok_noSemi h1)
              (NoC_cons (by decide) (NoC_cons (by decide) (NoC_cons (by decide)
                (NoC_padSeg (by decide) (CleanTok_noSemi h2) (by simp [NoC])))))))
            (NoC_cons (by decide) (NoC_padSeg (by decide) (CleanTok_noEq h1)
              (NoC_cons (by decide) (NoC_cons (by decide) (NoC_cons (by decide)
                (NoC_padSeg (by decide) (CleanTok_noEq h2) (by simp [NoC])))))))
            (NoC_cons (by decide) (NoC_padSeg (by decide) (CleanTok_noSemi h4)
              (NoC_replicate (by decide) _)))
            hpre hea heb]
          rw [parseSpecies_two h1 h2 (AllWs_replicate _)
                (AllWs_append (AllWs_replicate _) (by simp [AllWs, isWsC]))]
          rw [parseSpecies_one h4 (AllWs_append (AllWs_replicate _)
                (AllWs_replicate _))]
          simp [List.filter]
        · -- branch D: two reactants, two products
          have hline : formatReactionLine r1 r2 [] p1 p2 [] pre ea eb
              = ['A','R'] ++ ';' ::
                (((' ' :: (r1 ++ (List.replicate (15 - r1.length) ' '
                    ++ (' ' :: '+' :: ' ' :: (r2 ++ (List.replicate (15 - r2.length) ' '
                    ++ [' ']))))))
                  ++ '=' :: '>' ::
                  (' ' :: (p1 ++ (List.replicate (15 - p1.length) ' '
                    ++ (' ' :: '+' :: ' ' :: (p2
                      ++ List.replicate (20 - p2.length) ' '))))))
                 ++ ';' ::
                 ((pre ++ (List.replicate (10 - pre.length) ' ' ++ [' ']))
                  ++ ';' ::
                  ((' ' :: (pre ++ (List.replicate (10 - pre.length) ' ' ++ [' '])))
                   ++ ';' ::
                   ((' ' :: (ea ++ (List.replicate (10 - ea.length) ' ' ++ [' '])))
                    ++ ';' ::
                    (' ' :: (eb ++ (List.replicate (10 - eb.length) ' '
                      ++ [' ', '\n']))))))) := by
            simp [formatReactionLine, padTok, hr2, hp2]
          rw [hline, parse_line_helper _ _ _ _ _
            (NoC_cons (by decide) (NoC_padSeg (by decide) (CleanTok_noSemi h1)
              (NoC_cons (by decide) (NoC_cons (by decide) (NoC_cons (by decide)
                (NoC_padSeg (by decide) (CleanTok_noSemi h2) (by simp [NoC])))))))
            (NoC_cons (by decide) (NoC_padSeg (by decide) (CleanTok_noEq h1)
              (NoC_cons (by decide) (NoC_cons (by decide) (NoC_cons (by decide)
                (NoC_padSeg (by decide) (CleanTok_noEq h2) (by simp [NoC])))))))
            (NoC_cons (by decide) (NoC_padSeg (by decide) (CleanTok_noSemi h4)
              (NoC_cons (by decide) (NoC_cons (by decide) (NoC_cons (by decide)
                (NoC_append (CleanTok_noSemi h5) (NoC_replicate (by decide) _)))))))
            hpre hea heb]
          rw [parseSpecies_two h1 h2 (AllWs_replicate _)
                (AllWs_append (AllWs_replicate _) (by simp [AllWs, isWsC]))]
          rw [parseSpecies_two h4 h5 (AllWs_replicate _) (AllWs_replicate _)]
          simp [List.filter]
      · -- branch C: two reactants, three products
        have hline : formatReactionLine r1 r2 [] p1 p2 p3 pre ea eb
            = ['A','R'] ++ ';' ::
              (((' ' :: (r1 ++ (List.replicate (15 - r1.length) ' '
                  ++ (' ' :: '+' :: ' ' :: (r2 ++ (List.replicate (14 - r2.length) ' '
                  ++ [' ']))))))
                ++ '=' :: '>' ::
                (' ' :: (p1 ++ (List.replicate (10 - p1.length) ' '
                  ++ (' ' :: '+' :: ' ' :: (p2 ++ (List.replicate (15 - p2.length) ' '
                  ++ (' ' :: '+' :: ' ' :: (p3
                    ++ List.replicate (7 - p3.length) ' ')))))))))
               ++ ';' ::
               ((pre ++ (List.replicate (10 - pre.length) ' ' ++ [' ']))
                ++ ';' ::
                ((' ' :: (pre ++ (List.replicate (10 - pre.length) ' ' ++ [' '])))
                 ++ ';' ::
                 ((' ' :: (ea ++ (List.replicate (10 - ea.length) ' ' ++ [' '])))
                  ++ ';' ::
                  (' ' :: (eb ++ (List.replicate (10 - eb.length) ' '
                    ++ [' ', '\n']))))))) := by
          simp [formatReactionLine, padTok, hr2, hp3]
        rw [hline, parse_line_helper _ _ _ _ _
          (NoC_cons (by decide) (NoC_padSeg (by decide) (CleanTok_noSemi h1)
            (NoC_cons (by decide) (NoC_cons (by decide) (NoC_cons (by decide)
              (NoC_padSeg (by decide) (CleanTok_noSemi h2) (by simp [NoC])))))))
          (NoC_cons (by decide) (NoC_padSeg (by decide) (CleanTok_noEq h1)
            (NoC_cons (by decide) (NoC_cons (by decide) (NoC_cons (by decide)
              (NoC_padSeg (by decide) (CleanTok_noEq h2) (by simp [NoC])))))))
          (NoC_cons (by decide) (NoC_padSeg (by decide) (CleanTok_noSemi h4)
            (NoC_cons (by decide) (NoC_cons (by decide) (NoC_cons (by decide)
              (NoC_padSeg (by decide) (CleanTok_noSemi h5)
                (NoC_cons (by decide) (NoC_cons (by decide) (NoC_cons (by decide)
                  (NoC_append (CleanTok_noSemi h6)
                    (NoC_replicate (by decide) _)))))))))))
          hpre hea heb]
        rw [parseSpecies_two h1 h2 (AllWs_replicate _)
              (AllWs_append (AllWs_replicate _) (by simp [AllWs, isWsC]))]
        rw [parseSpecies_three h4 h5 h6 (AllWs_replicate _) (AllWs_replicate _)
              (AllWs_replicate _)]
        simp [List.filter]
  · -- r3 ≠ []: branches A, B
    by_cases hp3 : p3 = []
    · -- branch B: three reactants, at most two products
      subst hp3
      have hline : formatReactionLine r1 r2 r3 p1 p2 [] pre ea eb
          = ['A','R'] ++ ';' ::
            (((' ' :: (r1 ++ (List.replicate (15 - r1.length) ' '
                ++ (' ' :: '+' :: ' ' :: (r2 ++ (List.replicate (15 - r2.length) ' '
                ++ (' ' :: '+' :: ' ' :: (r3 ++ (List.replicate (5 - r3.length) ' '
                ++ [' '])))))))))
              ++ '=' :: '>' ::
              (' ' :: (p1 ++ (List.replicate (15 - p1.length) ' '
                ++ (' ' :: '+' :: ' ' :: (p2
                  ++ List.replicate (20 - p2.length) ' '))))))
             ++ ';' ::
             ((pre ++ (List.replicate (10 - pre.length) ' ' ++ [' ']))
              ++ ';' ::
              ((' ' :: (pre ++ (List.replicate (10 - pre.length) ' ' ++ [' '])))
               ++ ';' ::
               ((' ' :: (ea ++ (List.replicate (10 - ea.length) ' ' ++ [' '])))
                ++ ';' ::
                (' ' :: (eb ++ (List.replicate (10 - eb.length) ' '
                  ++ [' ', '\n']))))))) := by
        simp [formatReactionLine, padTok, hr3]
      rw [hline, parse_line_helper _ _ _ _ _
        (NoC_cons (by decide) (NoC_padSeg (by decide) (CleanTok_noSemi h1)
          (NoC_cons (by decide) (NoC_cons (by decide) (NoC_cons (by decide)
            (NoC_padSeg (by decide) (CleanTok_noSemi h2)
              (NoC_cons (by decide) (NoC_cons (by decide) (NoC_cons (by decide)
                (NoC_padSeg (by decide) (CleanTok_noSemi h3) (by simp [NoC])))))))))))
        (NoC_cons (by decide) (NoC_padSeg (by decide) (CleanTok_noEq h1)
          (NoC_cons (by decide) (NoC_cons (by decide) (NoC_cons (by decide)
            (NoC_padSeg (by decide) (CleanTok_noEq h2)
              (NoC_cons (by decide) (NoC_cons (by decide) (NoC_cons (by decide)
                (NoC_padSeg (by decide) (CleanTok_noEq h3) (by simp [NoC])))))))))))
        (NoC_cons (by decide) (NoC_padSeg (by decide) (CleanTok_noSemi h4)
          (NoC_cons (by decide) (NoC_cons (by decide) (NoC_cons (by decide)
            (NoC_append (CleanTok_noSemi h5) (NoC_replicate (by decide) _)))))))
        hpre hea heb]
      rw [parseSpecies_three h1 h2 h3 (AllWs_replicate _) (AllWs_replicate _)
            (AllWs_append (AllWs_replicate _) (by simp [AllWs, isWsC]))]
      rw [parseSpecies_two h4 h5 (AllWs_replicate _) (AllWs_replicate _)]
      simp [List.filter]
    · -- branch A: three reactants, three products
      have hline : formatReactionLine r1 r2 r3 p1 p2 p3 pre ea eb
          = ['A','R'] ++ ';' ::
            (((' ' :: (r1 ++ (List.replicate (15 - r1.length) ' '
                ++ (' ' :: '+' :: ' ' :: (r2 ++ (List.replicate (15 - r2.length) ' '
                ++ (' ' :: '+' :: ' ' :: (r3 ++ (List.replicate (5 - r3.length) ' '
                ++ [' '])))))))))
              ++ '=' :: '>' ::
              (' ' :: (p1 ++ (List.replicate (15 - p1.length) ' '
                ++ (' ' :: '+' :: ' ' :: (p2 ++ (List.replicate (15 - p2.length) ' '
                ++ (' ' :: '+' :: ' ' :: (p3
                  ++ List.replicate (7 - p3.length) ' ')))))))))
             ++ ';' ::
             ((pre ++ (List.replicate (10 - pre.length) ' ' ++ [' ']))
              ++ ';' ::
              ((' ' :: (pre ++ (List.replicate (10 - pre.length) ' ' ++ [' '])))
               ++ ';' ::
               ((' ' :: (ea ++ (List.replicate (10 - ea.length) ' ' ++ [' '])))
                ++ ';' ::
                (' ' :: (eb ++ (List.replicate (10 - eb.length) ' '
                  ++ [' ', '\n']))))))) := by
        simp [formatReactionLine, padTok, hr3, hp3]
      rw [hline, parse_line_helper _ _ _ _ _
        (NoC_cons (by decide) (NoC_padSeg (by decide) (CleanTok_noSemi h1)
          (NoC_cons (by decide) (NoC_cons (by decide) (NoC_cons (by decide)
            (NoC_padSeg (by decide) (CleanTok_noSemi h2)
              (NoC_cons (by decide) (NoC_cons (by decide) (NoC_cons (by decide)
                (NoC_padSeg (by decide) (CleanTok_noSemi h3) (by simp [NoC])))))))))))
        (NoC_cons (by decide) (NoC_padSeg (by decide) (CleanTok_noEq h1)
          (NoC_cons (by decide) (NoC_cons (by decide) (NoC_cons (by decide)
            (NoC_padSeg (by decide) (CleanTok_noEq h2)
              (NoC_cons (by decide) (NoC_cons (by decide) (NoC_cons (by decide)
                (NoC_padSeg (by decide) (CleanTok_noEq h3) (by simp [NoC])))))))))))
        (NoC_cons (by decide) (NoC_padSeg (by decide) (CleanTok_noSemi h4)
          (NoC_cons (by decide) (NoC_cons (by decide) (NoC_cons (by decide)
            (NoC_padSeg (by decide) (CleanTok_noSemi h5)
              (NoC_cons (by decide) (NoC_cons (by decide) (NoC_cons (by decide)
                (NoC_append (CleanTok_noSemi h6)
                  (NoC_replicate (by decide) _)))))))))))
        hpre hea heb]
      rw [parseSpecies_three h1 h2 h3 (AllWs_replicate _) (AllWs_replicate _)
            (AllWs_append (AllWs_replicate _) (by simp [AllWs, isWsC]))]
      rw [parseSpecies_three h4 h5 h6 (AllWs_replicate _) (AllWs_replicate _)
            (AllWs_replicate _)]

/-- Witness for C8 at the concrete reaction `CO* + H* => CHO* + *` with
`Ea = 0.5`, `Eb = 1.2`. -/
theorem formatReactionLine_roundtrip_witness :
    parseReactionLine (formatReactionLine ['C','O','*'] ['H','*'] []
        ['C','H','O','*'] ['*'] [] ['6','.','2','1','e','+','1','2']
        ['0','.','5'] ['1','.','2'])
      = ([['C','O','*'], ['H','*'], []].filter (fun t => !t.isEmpty),
         [['C','H','O','*'], ['*'], []].filter (fun t => !t.isEmpty),
         ['0','.','5'], ['1','.','2']) :=
  formatReactionLine_roundtrip ['C','O','*'] ['H','*'] [] ['C','H','O','*']
    ['*'] [] ['6','.','2','1','e','+','1','2'] ['0','.','5'] ['1','.','2']
    (by simp [CleanTok, isWsC]) (by simp [CleanTok, isWsC])
    (by simp [CleanTok]) (by simp [CleanTok, isWsC]) (by simp [CleanTok, isWsC])
    (by simp [CleanTok]) (by simp [NoC]) (by simp [CleanNum, isWsC])
    (by simp [CleanNum, isWsC]) (by simp)

/-! ### The gas-phase compounds section
(`simulation_runner.py`, `_write_compounds_section` lines 120-131) -/

/-- A leading/trailing `{` or `}` character, as stripped by
`compound.strip("{}")`. -/
def isBraceC (c : Char) : Bool := c == '{' || c == '}'

/-- Python's `compound.strip("{}")`. -/
def stripBraces (s : Tok) : Tok :=
  ((s.dropWhile isBraceC).reverse.dropWhile isBraceC).reverse

/-- The literature constant `10 ** (-(14 - 9.5))` written for the hydroxide
concentration at pH 7 (line 129).  The one real-valued constant of the
model: the Python float value is the IEEE rounding of this real. -/
noncomputable def ohConc : ℝ := (10 : ℝ) ^ (-(14 - 9.5) : ℝ)

/-- The concentration written on one gas-phase compound line: the upstream
value, except that the hydroxide species at `pH == 7` exactly is forced to
`ohConc` (lines 127-129). -/
noncomputable def gasConcLine (pH : ℚ) (compound : Tok) (c : ℝ) : ℝ :=
  if stripBraces compound = ['O', 'H'] ∧ pH = 7 then ohConc else c

/-- The gas-phase compound loop (lines 126-130):
`zip_longest(gases, concentrations, fillvalue=0.0)` pairs each compound with
its concentration, padding missing concentrations with `0.0`.  (When the
concentration list is *longer*, the source crashes on `0.0.strip`, so only
the compound-driven rows are modelled.) -/
noncomputable def gasLines (pH : ℚ) : List Tok → List ℝ → List (Tok × ℝ)
  | [], _ => []
  | g :: gs, [] => (g, gasConcLine pH g 0) :: gasLines pH gs []
  | g :: gs, c :: cs => (g, gasConcLine pH g c) :: gasLines pH gs cs

/-- C9: in the generated compounds section, whenever the cell's pH equals 7
exactly, the hydroxide (`OH`, possibly brace-wrapped) gas-phase species is
written with concentration `10^(-(14-9.5))` regardless of the upstream
value; every other (species, pH) combination gets the supplied
concentration unchanged (`0.0` when the concentration list ran short). -/
theorem gasLines_spec (pH : ℚ) (gases : List Tok) (concs : List ℝ)
    (i : ℕ) (g : Tok) (c : ℝ)
    (h : (gasLines pH gases concs)[i]? = some (g, c)) :
    gases[i]? = some g
    ∧ ((stripBraces g = ['O', 'H'] ∧ pH = 7) → c = ohConc)
    ∧ (¬(stripBraces g = ['O', 'H'] ∧ pH = 7) →
        (concs[i]? = some c ∨ (concs.length ≤ i ∧ c = 0))) := by
  induction gases generalizing concs i with
  | nil => simp [gasLines] at h
  | cons g0 gs ih =>
      cases concs with
      | nil =>
          cases i with
          | zero =>
              rw [gasLines, List.getElem?_cons_zero] at h
              have hg : g = g0 := by
                have := congrArg (fun p => Prod.fst <$> p) h
                simpa using this.symm
              have hc : c = gasConcLine pH g0 0 := by
                have := congrArg (fun p => Prod.snd <$> p) h
                simpa using this.symm
              subst hg
              refine ⟨by simp, ?_, ?_⟩
              · intro hcond
                rw [hc]
                unfold gasConcLine
                rw [if_pos hcond]
              · intro hcond
                right
                refine ⟨by simp, ?_⟩
                rw [hc]
                unfold gasConcLine
                rw [if_neg hcond]
          | succ j =>
              rw [gasLines, List.getElem?_cons_succ] at h
              obtain ⟨h1, h2, h3⟩ := ih [] j h
              refine ⟨by simpa using h1, h2, ?_⟩
              intro hcond
              rcases h3 hcond with h' | h'
              · simp at h'
              · right
                exact ⟨by simp, h'.2⟩
      | cons c0 cs =>
          cases i with
          | zero =>
              rw [gasLines, List.getElem?_cons_zero] at h
              have hg : g = g0 := by
                have := congrArg (fun p => Prod.fst <$> p) h
                simpa using this.symm
              have hc : c = gasConcLine pH g0 c0 := by
                have := congrArg (fun p => Prod.snd <$> p) h
                simpa using this.symm
              subst hg
              refine ⟨by simp, ?_, ?_⟩
              · intro hcond
                rw [hc]
                unfold gasConcLine
                rw [if_pos hcond]
              · intro hcond
                left
                rw [hc]
                unfold gasConcLine
                rw [if_neg hcond]
                simp
          | succ j =>
              rw [gasLines, List.getElem?_cons_succ] at h
              obtain ⟨h1, h2, h3⟩ := ih cs j h
              refine ⟨by simpa using h1, h2, ?_⟩
              intro hcond
              rcases h3 hcond with h' | h'
              · left
                simpa using h'
              · right
                refine ⟨?_, h'.2⟩
                simpa using Nat.succ_le_succ h'.1

/-- Witness for C9: at `pH = 7`, the written hydroxide concentration is the
forced constant even though `5` was supplied. -/
theorem gasLines_spec_witness :
    ∃ c : ℝ, (gasLines 7 [['O', 'H']] [(5 : ℝ)])[0]? = some (['O', 'H'], c)
      ∧ c = ohConc :=
  ⟨ohConc, rfl,
    (gasLines_spec 7 [['O', 'H']] [(5 : ℝ)] 0 ['O', 'H'] ohConc rfl).2.1
      ⟨rfl, rfl⟩⟩

end TMKM
